import Mathlib

/-!
# Verification of the Project-Jessica agent core

Shallow embedding of the beat-driven agent simulation: the spatial world
model with A-star pathfinding and on-demand generation (world_manager.py),
the action lifecycle state machine (action_system.py), the action manager
(action_manager.py), the plan executor and cognition dispatch
(jessica_core.py), and the affect engine (limbic_system.py).

Python floats are modelled as rationals, dicts as association lists in
insertion order, and the generative oracle as an explicit environment
parameter.  Narration, logging and cognition dispatch are modelled as
emitted events.
-/

namespace Jessica

/-! ## Directions and coordinates -/

/-- The six compass/vertical directions handled by the movement code
(the if/elif chain of world_manager._discover_and_generate_location). -/
inductive Dir
  | north | south | east | west | up | down
deriving DecidableEq, Repr

/-- Parse a direction string; mirrors the if/elif chain that ends in
a failure return for any other string. -/
def parseDir : String → Option Dir
  | "north" => some .north
  | "south" => some .south
  | "east" => some .east
  | "west" => some .west
  | "up" => some .up
  | "down" => some .down
  | _ => none

def Dir.toLabel : Dir → String
  | .north => "north"
  | .south => "south"
  | .east => "east"
  | .west => "west"
  | .up => "up"
  | .down => "down"

/-- The opposite_map dict of _discover_and_generate_location. -/
def Dir.opposite : Dir → Dir
  | .north => .south
  | .south => .north
  | .east => .west
  | .west => .east
  | .up => .down
  | .down => .up

/-- Integer 3-tuple coordinates (the grid keys "x,y,z"). -/
abbrev Coord := Int × Int × Int

/-- Coordinate deltas of _discover_and_generate_location:
north y+1, south y-1, east x+1, west x-1, up z+1, down z-1. -/
def Dir.delta : Dir → Coord → Coord
  | .north, (x, y, z) => (x, y + 1, z)
  | .south, (x, y, z) => (x, y - 1, z)
  | .east, (x, y, z) => (x + 1, y, z)
  | .west, (x, y, z) => (x - 1, y, z)
  | .up, (x, y, z) => (x, y, z + 1)
  | .down, (x, y, z) => (x, y, z - 1)

/-! ## Locations, the grid and the object registry -/

/-- A location record of the world grid: name, description, object id
list, direction-to-coordinate connection dict (insertion order), and the
indoor/outdoor type string. -/
structure Location where
  name : String
  description : String
  objects : List String
  connections : List (String × Coord)
  type : String
deriving DecidableEq, Repr

/-- world_data["grid"]: coordinate-keyed map of locations, modelled as an
association list (Python dict keys are unique; lookup is first match). -/
abbrev Grid := List (Coord × Location)

/-- Generic dict lookup on an association list (Python dict keys are
unique; lookup is first match). -/
def alookup {α β : Type} [DecidableEq α] (l : List (α × β)) (k : α) : Option β :=
  (l.find? (fun e => e.1 = k)).map (fun e => e.2)

/-- Generic dict write l[k] = v on an association list: rebind the key
in place when it exists (keeping insertion order), else append (Python
dict assignment semantics). -/
def aset {α β : Type} [DecidableEq α] : List (α × β) → α → β → List (α × β)
  | [], k, v => [(k, v)]
  | x :: xs, k, v => if x.1 = k then (k, v) :: xs else x :: aset xs k v

/-- WorldManager.get_location_at. -/
def getLocationAt (g : Grid) (c : Coord) : Option Location :=
  alookup g c

/-- Dict write grid[key] = value. -/
def gridSet (g : Grid) (c : Coord) (loc : Location) : Grid :=
  aset g c loc

/-- Lookup in a connections dict by direction label. -/
def findConn (loc : Location) (d : String) : Option Coord :=
  alookup loc.connections d

/-- Dict write connections[d] = c. -/
def connSet (conns : List (String × Coord)) (d : String) (c : Coord) :
    List (String × Coord) :=
  aset conns d c

/-- Attributes of a registered world object (a subset of the dict fields
that appear in the template catalog and generation fallback). -/
structure ObjData where
  description : String := ""
  is_interactive : Bool := false
  satiation : Option ℚ := none
  state : String := ""
  is_locked : Bool := false
  inventory : List String := []
deriving DecidableEq, Repr

/-- world_data["objects"]: the object registry, id to attributes. -/
abbrev ObjRegistry := List (String × ObjData)

/-- Dict membership test obj_name in world_objects. -/
def objRegistered (r : ObjRegistry) (name : String) : Bool :=
  (r.find? (fun e => e.1 = name)).isSome

/-- The static object template catalog of
WorldManager._load_object_templates (attribute subset). -/
def objectTemplates : List (String × ObjData) :=
  [ ("vending_machine", { description := "A dusty vending machine, humming quietly.", is_interactive := true, inventory := ["bag_of_chips"] }),
    ("bag_of_chips", { description := "A generic bag of salty chips.", satiation := some (2/10) }),
    ("store_door", { state := "closed" }),
    ("bench", { description := "A weathered wooden bench." }),
    ("street_lamp", { description := "A tall, black street lamp.", state := "off" }),
    ("puddle", { description := "A shimmering puddle of rainwater on the pavement." }),
    ("mailbox", { description := "A blue, official-looking mailbox.", is_interactive := true }),
    ("bus_stop", { description := "A simple bus stop with a bench and a faded route map." }),
    ("withered_tree", { description := "A gnarled, leafless tree reaching up like skeletal fingers." }),
    ("discarded_tire", { description := "An old car tire lying on its side, collecting rainwater." }),
    ("chainlink_fence", { description := "A rusted chainlink fence that looks easy to climb." }),
    ("timetable_sign", { description := "A faded bus schedule, rendered unreadable by sun and rain." }),
    ("garage_door", { state := "closed", is_locked := true }),
    ("old_car", { description := "A dusty, forgotten car. The tires are flat and the paint is peeling." }),
    ("easel", { description := "A sturdy wooden easel, waiting for a canvas.", inventory := ["blank_canvas"] }),
    ("blank_canvas", { description := "A blank canvas, full of possibility." }),
    ("park_fountain", { description := "A stone fountain, water gently bubbling from its center." }),
    ("flickering_lightbulb", { description := "A bare lightbulb that flickers intermittently, casting an unreliable light." }),
    ("unidentified_object", { description := "An object I do not recognize. It is unclear what it is from a distance." }) ]

/-- object_templates.get(name, fallback-with-generic-description). -/
def templateOrGeneric (name : String) : ObjData :=
  match objectTemplates.find? (fun e => e.1 = name) with
  | some e => e.2
  | none => { description := "I see a " ++ name ++ " here." }

/-! ## Affect engine (limbic_system.py) -/

/-- The five hormone scalars, the derived mood profile, and the genetic
traits of LimbicState.__init__. -/
structure LimbicState where
  dopamine : ℚ
  cortisol : ℚ
  oxytocin : ℚ
  serotonin : ℚ
  norepinephrine : ℚ
  mood_primary : String
  mood_secondary : List String
  fear_of_abandonment : ℚ
  mood_stability_trait : ℚ
  curiosity_trait : ℚ
  stress_resilience : ℚ
deriving DecidableEq, Repr

/-- LimbicState.__init__ with a genetic code supplying the three traits
(defaults 0.8, 0.6, 0.7). -/
def LimbicState.init (fear stability curiosity : ℚ) : LimbicState :=
  { dopamine := 8/10, cortisol := 1/10, oxytocin := 3/10,
    serotonin := 6/10, norepinephrine := 7/10,
    mood_primary := "stable", mood_secondary := [],
    fear_of_abandonment := fear, mood_stability_trait := stability,
    curiosity_trait := curiosity, stress_resilience := 1 - stability }

/-- The snapshot of the psyche read by LimbicState.update: needs, the
core-drives dict (name to urgency), seconds since the last interaction,
the name of the current location, and the is_asleep predicate. -/
structure LimbicEnv where
  energy : ℚ
  hunger : ℚ
  drives : List (String × ℚ)
  time_since_interaction : ℚ
  location_name : String
  is_asleep : Bool
deriving DecidableEq, Repr

/-- drives.get(name, default).get("urgency", default). -/
def driveUrgency (drives : List (String × ℚ)) (name : String) (dflt : ℚ) : ℚ :=
  match drives.find? (fun e => e.1 = name) with
  | some e => e.2
  | none => dflt

/-- LimbicState._update_mood_profile: per-mood thresholded scores in the
fixed definition order, primary = first maximum (Python max over dict
keys), secondary = up to 2 further moods scoring above 0.5, in stable
descending score order. -/
def LimbicState.updateMoodProfile (s : LimbicState) : LimbicState :=
  let moods : List (String × ℚ) :=
    [ ("anxious", if s.cortisol > 1/2 then s.cortisol else 0),
      ("stressed", if s.cortisol > 6/10 then s.cortisol * (8/10) else 0),
      ("elated", if s.dopamine > 8/10 then s.dopamine else 0),
      ("motivated", if s.dopamine > 6/10 then s.dopamine else 0),
      ("melancholic", if s.serotonin < 4/10 then 1 - s.serotonin else 0),
      ("content", if s.oxytocin > 6/10 then s.oxytocin else 0),
      ("focused", if s.norepinephrine > 7/10 then s.norepinephrine else 0),
      ("stable", (s.serotonin - |s.serotonin - 1/2|) * (3/2)) ]
  let profile : String × List String :=
    if moods.all (fun e => e.2 = 0) then ("neutral", [])
    else
      -- Python max(moods, key=moods.get): first key attaining the maximum.
      let best := moods.foldl (fun acc e => if e.2 > acc.2 then e else acc)
        ("anxious", if s.cortisol > 1/2 then s.cortisol else 0)
      -- sorted(moods.items(), key=value, reverse=True) is a stable
      -- descending sort; we take non-primary entries above 0.5.
      let sorted := (moods.mergeSort (fun a b => a.2 ≥ b.2))
      let secondary := (sorted.filter (fun e => e.1 ≠ best.1 ∧ e.2 > 1/2)).map
        (fun e => e.1)
      (best.1, secondary.take 2)
  { s with mood_primary := profile.1, mood_secondary := profile.2 }

/-- LimbicState.update: multiplicative decay (safe-location dependent
cortisol rate), additive stress from needs, drives and loneliness, the
creative-pride cortisol relief, oxytocin from recent interaction,
serotonin coupling, dopamine rewards with the soft ceiling above 0.9,
the sleep override, and the final clamp of all five scalars to [0,1],
followed by the mood profile derivation. -/
def LimbicState.update (env : LimbicEnv) (s : LimbicState) : LimbicState :=
  let energy := env.energy
  let hunger := env.hunger
  let overall_need_satisfaction := (energy + hunger) / 2
  let is_safe := env.location_name = "Living Room" ∨ env.location_name = "Bedroom"
  let cortisol_decay_rate : ℚ := if is_safe then 9473/10000 else 9724/10000
  let dopamine := s.dopamine * (9830/10000)
  let cortisol := s.cortisol * cortisol_decay_rate
  let oxytocin := s.oxytocin * (9865/10000)
  let serotonin := s.serotonin * (9933/10000)
  let norepinephrine := s.norepinephrine * (9899/10000)
  let stress_from_needs := ((1 - energy) + (1 - hunger)) * (167/10000)
  let stress_from_drives :=
    if env.drives ≠ [] then
      ((env.drives.map (fun e => e.2)).sum / env.drives.length) * (67/10000)
    else 0
  let stress_from_loneliness :=
    if env.time_since_interaction > 3600 then
      (min (env.time_since_interaction / 14400) 1) * s.fear_of_abandonment * (5/1000)
    else 0
  let creativity_drive_urgency := driveUrgency env.drives "creativity" 1
  let cortisol := if creativity_drive_urgency < 1/10 then cortisol * (965/1000) else cortisol
  let cortisol := cortisol + (stress_from_needs + stress_from_drives + stress_from_loneliness)
  let cortisol := cortisol - ((oxytocin * (267/10000)) + (serotonin * (267/10000)))
  let oxytocin := if env.time_since_interaction < 600 then oxytocin + 133/10000 else oxytocin
  let serotonin := if cortisol > 7/10 then
      serotonin - (cortisol - 7/10) * (33/10000) * s.stress_resilience
    else serotonin
  let serotonin := if overall_need_satisfaction > 8/10 then
      serotonin + (overall_need_satisfaction - 8/10) * (67/10000) * s.mood_stability_trait
    else serotonin
  let reward_from_needs_met := (1 - (1 - overall_need_satisfaction)^2) * (33/10000)
  let reward_from_understanding :=
    (1 - driveUrgency env.drives "understanding" 1) * (5/1000) * s.curiosity_trait
  let reward_from_creativity := (1 - creativity_drive_urgency) * (33/10000)
  let dopamine := dopamine + reward_from_needs_met + reward_from_understanding + reward_from_creativity
  -- psyche_state.limbic is self, so the guard reads the just-updated value
  let dopamine := if dopamine > 9/10 then dopamine * (95/100) else dopamine
  let cortisol := if env.is_asleep then cortisol * (928/1000) else cortisol
  let serotonin := if env.is_asleep then min 1 (serotonin + 167/10000) else serotonin
  let s' := { s with
    dopamine := max 0 (min 1 dopamine),
    cortisol := max 0 (min 1 cortisol),
    oxytocin := max 0 (min 1 oxytocin),
    serotonin := max 0 (min 1 serotonin),
    norepinephrine := max 0 (min 1 norepinephrine) }
  s'.updateMoodProfile

/-- A sequence of beats: fold the limbic update over the per-beat
psyche snapshots. -/
def LimbicState.run (s : LimbicState) (envs : List LimbicEnv) : LimbicState :=
  envs.foldl (fun st e => st.update e) s

/-! ## Observable side effects

Narration output, mind-log writes, asynchronous cognition dispatch
(Conscious.think spawns a worker thread) and file side effects are
modelled as emitted events. -/

inductive MindEvent
  | narration (text : String)
  | logEvent (tag : String) (msg : String)
  | cognitionRequest (trigger : String) (user_id : String) (context : String)
  | journalWrite (entry : String)
  | learnFromBook (book : String)
  | autonomyPoll
  | putDownPhone
  | saveState
deriving DecidableEq, Repr

/-- A step of an action plan: dicts with keys action, action_data, goal. -/
structure Step where
  action : String
  action_data : List (String × String) := []
  goal : String := ""
deriving DecidableEq, Repr

/-! ## Action state machine (action_system.py)

The polymorphic Action subclasses are embedded as one flat state record
tagged by kind; per-kind payload fields default to neutral values.  The
kinds modelled are the ones the verified claims exercise; the remaining
subclasses follow the base-class lifecycle through the generic kind. -/

inductive AKind
  | idle
  | thinkAndRespond
  | search
  | readBook
  | journal
  | doWork
  | lookOutOfWindow
  | generic (name : String)
deriving DecidableEq, Repr

structure ActionState where
  kind : AKind
  duration : Nat
  beats_elapsed : Nat
  is_finished : Bool
  is_interruptible : Bool
  was_successful : Bool
  pauses_plan : Bool := false
  message_count : Nat := 0
  object_name : String := ""
  search_depth : Nat := 0
  visited_coords : List Coord := []
  search_queue : List (Coord × Nat) := []
  search_is_outdoors : Bool := false
  book_name : String := ""
  entry_content : String := ""
deriving DecidableEq, Repr

/-- Action.__init__: duration as given, elapsed 0, not finished,
interruptible, not successful. -/
def Action.mk0 (kind : AKind) (duration_beats : Nat) : ActionState :=
  { kind := kind, duration := duration_beats, beats_elapsed := 0,
    is_finished := false, is_interruptible := true, was_successful := false }

def IdleAction.mk1 : ActionState := Action.mk0 .idle 1

def ThinkAndRespondAction.mk1 (messages : Nat) (pauses : Bool) : ActionState :=
  { (Action.mk0 .thinkAndRespond 1) with
    is_interruptible := false
    pauses_plan := pauses
    message_count := messages }

/-- SearchAction.__init__: duration = search_depth * 2, empty visited
set and queue, outdoors flag initially false. -/
def SearchAction.mk1 (object_name : String) (search_depth : Nat) : ActionState :=
  { (Action.mk0 .search (search_depth * 2)) with
    object_name := object_name
    search_depth := search_depth }

def ReadBookAction.mk1 (book : String) : ActionState :=
  { (Action.mk0 .readBook 5) with book_name := book }

def JournalAction.mk1 (entry : String) : ActionState :=
  { (Action.mk0 .journal 3) with entry_content := entry }

def DoWorkAction.mk1 : ActionState := Action.mk0 .doWork 10

def LookOutOfWindowAction.mk1 : ActionState := Action.mk0 .lookOutOfWindow 2

/-! ## The shared psyche state (jessica_core.Psyche)

One record holds the fields of the global agent object that the embedded
subsystems read and write.  The action manager fields current_action and
last_action_status are inlined here (in the source the manager holds a
back reference to the psyche).  needs and core-drive urgencies are
modelled as the record fields the default state always populates; skills
keeps the dict shape because the source reads it with .get defaults. -/

structure Psyche where
  grid : Grid
  world_objects : ObjRegistry
  position : Coord
  weather : String := "Sunny"
  time_of_day : String := "Morning"
  action_plan : List Step := []
  current_mission : Option String := none
  current_action : Option ActionState := some IdleAction.mk1
  last_action_status : Option Bool := none
  limbic : LimbicState := LimbicState.init (8/10) (6/10) (7/10)
  energy : ℚ := 1
  hunger : ℚ := 1
  money : ℚ := 0
  understanding_urgency : ℚ := 1
  creativity_urgency : ℚ := 1
  skills : List (String × ℚ) := []
  possessions : List String := []
  is_sleeping : Bool := false
  is_rate_limited : Bool := false
  rate_limit_until : ℚ := 0
  last_user_id : String := "system"
deriving DecidableEq, Repr

/-- skills.get(name, default). -/
def skillGet (skills : List (String × ℚ)) (name : String) (dflt : ℚ) : ℚ :=
  (alookup skills name).getD dflt

/-- skills[name] = value (dict write). -/
def skillSet (skills : List (String × ℚ)) (name : String) (v : ℚ) :
    List (String × ℚ) :=
  aset skills name v

/-- Per-beat nondeterminism and oracle feed for action stepping: the
random draws of the timed actions and the reply text that the finish
hooks obtain through _safe_generate_content. -/
structure ActEnv where
  ambientFire : Bool := false
  ambientPick : Nat := 0
  workRand : ℚ := 5
  oracleText : String := ""
deriving DecidableEq, Repr

/-- Action.finish of the base class: idempotence guard, then record the
outcome, mark finished, and log (the idle filler suppresses the failure
log). -/
def Action.baseFinish (success : Bool) (a : ActionState) (p : Psyche) :
    ActionState × Psyche × List MindEvent :=
  if a.is_finished then (a, p, [])
  else
    let evs := if a.kind = .idle ∧ success = false then []
      else [MindEvent.logEvent "ACTION_SYSTEM"
        ((if success then "Finished" else "Failed") ++ " action")]
    ({ a with was_successful := success, is_finished := true }, p, evs)

/-- Dynamic dispatch of self.finish(...): the overriding subclasses run
their side effects unconditionally (before the idempotence guard of the
base call) and pass success=True to the base finish regardless of the
argument. -/
def Action.finish (env : ActEnv) (success : Bool) (a : ActionState) (p : Psyche) :
    ActionState × Psyche × List MindEvent :=
  match a.kind with
  | .thinkAndRespond =>
      let evs := if a.pauses_plan ∧ p.action_plan ≠ [] then
          [MindEvent.logEvent "ACTION_PLAN" "Finished responding to user. Resuming action plan."]
        else []
      let (a1, p1, evs1) := Action.baseFinish success a p
      (a1, p1, evs ++ evs1)
  | .readBook =>
      let (a1, p1, evs1) := Action.baseFinish true a p
      (a1, p1, [MindEvent.learnFromBook a.book_name] ++ evs1)
  | .journal =>
      let p := { p with
        limbic := { p.limbic with cortisol := p.limbic.cortisol * (8/10) },
        understanding_urgency := p.understanding_urgency * (7/10) }
      let (a1, p1, evs1) := Action.baseFinish true a p
      (a1, p1,
        [MindEvent.journalWrite a.entry_content,
         MindEvent.narration "She finishes writing, closing her journal with a soft sigh."] ++ evs1)
  | .doWork =>
      let work_ethic := skillGet p.skills "work_ethic" (1/10)
      let money_earned := env.workRand + work_ethic * 15
      let p := { p with
        money := p.money + money_earned,
        energy := p.energy - 2/10,
        skills := skillSet p.skills "work_ethic" (min 1 (work_ethic + 1/100)),
        creativity_urgency := p.creativity_urgency * (1/2) }
      let (a1, p1, evs1) := Action.baseFinish true a p
      (a1, p1, [MindEvent.narration "She spends some time working on the computer."] ++ evs1)
  | .lookOutOfWindow =>
      -- the spontaneous thought comes from _safe_generate_content; the
      -- reply text env.oracleText only feeds the narration
      let p := { p with understanding_urgency := p.understanding_urgency * (9/10) }
      let (a1, p1, evs1) := Action.baseFinish true a p
      (a1, p1, [MindEvent.narration ("She looks out at the weather. " ++ env.oracleText)] ++ evs1)
  | _ => Action.baseFinish success a p

/-- Action.update of the base class: advance elapsed beats; when the
duration is reached and no explicit finish occurred, auto-finish with
failure through the (dispatched) finish. -/
def Action.baseUpdate (env : ActEnv) (a : ActionState) (p : Psyche) :
    ActionState × Psyche × List MindEvent :=
  let a := { a with beats_elapsed := a.beats_elapsed + 1 }
  if a.duration ≤ a.beats_elapsed ∧ a.is_finished = false then
    Action.finish env false a p
  else (a, p, [])

/-- IdleAction.update: poll scheduled events, spontaneous thoughts and
autonomous actions (abstracted into one event; only issued when no plan
or mission is active), then the base update, then self-reset so the
filler never terminates on its own. -/
def IdleAction.updateBody (env : ActEnv) (a : ActionState) (p : Psyche) :
    ActionState × Psyche × List MindEvent :=
  let evs := if p.action_plan = [] ∧ p.current_mission = none then
      [MindEvent.autonomyPoll]
    else []
  let (a1, p1, evs1) := Action.baseUpdate env a p
  if a1.is_finished then
    ({ a1 with is_finished := false, beats_elapsed := 0 }, p1, evs ++ evs1)
  else (a1, p1, evs ++ evs1)

/-- ReadBookAction.update: possible ambient narration, then base. -/
def ReadBookAction.updateBody (env : ActEnv) (a : ActionState) (p : Psyche) :
    ActionState × Psyche × List MindEvent :=
  let evs := if env.ambientFire then
      [MindEvent.narration "She turns a page, her eyes scanning the text intently."]
    else []
  let (a1, p1, evs1) := Action.baseUpdate env a p
  (a1, p1, evs ++ evs1)

/-- The neighbour-expansion for loop of SearchAction.update: for each
connection of the visited location, skip coordinates already in the
visited set, skip coordinates without location data, skip outdoor
neighbours when the search did not start outdoors, and otherwise add
the coordinate to the visited set and enqueue it one level deeper. -/
def SearchAction.enqueueOne (grid : Grid) (depth : Nat) (acc : ActionState)
    (e : String × Coord) : ActionState :=
  let coords := e.2
  if coords ∈ acc.visited_coords then acc
  else
    match getLocationAt grid coords with
    | none => acc
    | some neighbor_loc =>
        if acc.search_is_outdoors = false ∧ neighbor_loc.type = "outdoor" then acc
        else
          { acc with visited_coords := acc.visited_coords ++ [coords],
                     search_queue := acc.search_queue ++ [(coords, depth + 1)] }

def SearchAction.enqueueNeighbors (grid : Grid) (depth : Nat)
    (conns : List (String × Coord)) (a : ActionState) : ActionState :=
  conns.foldl (SearchAction.enqueueOne grid depth) a

/-- SearchAction.update: base update first (the beat timeout may fire,
yielding the gave-up narration when unexplored coordinates remain);
otherwise pop the queue head, relocate there, test for the target, and
within the depth bound enqueue unvisited neighbours, skipping outdoor
neighbours when the search did not start outdoors. -/
def SearchAction.updateBody (env : ActEnv) (a : ActionState) (p : Psyche) :
    ActionState × Psyche × List MindEvent :=
  let (a, p, evs0) := Action.baseUpdate env a p
  if a.is_finished then
    (a, p, evs0 ++ (if a.search_queue ≠ [] then
      [MindEvent.narration "Her search is taking too long, and she gives up for now."] else []))
  else
    match a.search_queue with
    | [] =>
        let (a1, p1, evs1) := Action.finish env false a p
        (a1, p1, evs0 ++
          [MindEvent.narration "After searching the area, she cannot find the target."] ++ evs1)
    | (current_coords, depth) :: rest =>
        let a := { a with search_queue := rest }
        match getLocationAt p.grid current_coords with
        | none =>
            (a, p, evs0 ++ [MindEvent.logEvent "ACTION_FAILURE" "Search failed: invalid coordinates in queue."])
        | some current_location_data =>
            let p := { p with position := current_coords }
            let evs := evs0 ++ [MindEvent.narration ("Her search takes her to the " ++ current_location_data.name)]
            if a.object_name ∈ current_location_data.objects then
              let (a1, p1, evs1) := Action.finish env true a p
              (a1, p1, evs ++ [MindEvent.narration "Success! She has found the target."] ++ evs1)
            else if depth < a.search_depth then
              (SearchAction.enqueueNeighbors p.grid depth
                current_location_data.connections a, p, evs)
            else (a, p, evs)

/-- Dynamic dispatch of self.update(): the subclasses that override
update, else the base behaviour. -/
def Action.update (env : ActEnv) (a : ActionState) (p : Psyche) :
    ActionState × Psyche × List MindEvent :=
  match a.kind with
  | .idle => IdleAction.updateBody env a p
  | .search => SearchAction.updateBody env a p
  | .readBook => ReadBookAction.updateBody env a p
  | _ => Action.baseUpdate env a p

/-- Dynamic dispatch of self.start(): the idle filler overrides start
with a pass; ThinkAndRespondAction resolves synchronously inside start
(narration, asynchronous cognition dispatch, finish success);
SearchAction seeds the queue, the visited set and the outdoors flag
from the starting location; the other kinds log and narrate. -/
def Action.start (env : ActEnv) (a : ActionState) (p : Psyche) :
    ActionState × Psyche × List MindEvent :=
  match a.kind with
  | .idle => (a, p, [])
  | .thinkAndRespond =>
      let evs := [MindEvent.logEvent "ACTION_SYSTEM" "Starting action",
        MindEvent.narration "She reads the new messages, her expression thoughtful.",
        MindEvent.cognitionRequest "Reading a batch of messages" p.last_user_id ""]
      let (a1, p1, evs1) := Action.finish env true a p
      (a1, p1, evs ++ evs1)
  | .search =>
      let initial := p.position
      let outdoors := match getLocationAt p.grid initial with
        | some loc => loc.type = "outdoor"
        | none => false
      let a := { a with search_is_outdoors := outdoors,
                        search_queue := a.search_queue ++ [(initial, 0)],
                        visited_coords :=
                          if initial ∈ a.visited_coords then a.visited_coords
                          else a.visited_coords ++ [initial] }
      (a, p, [MindEvent.logEvent "ACTION_SYSTEM" "Starting action",
              MindEvent.narration "She begins to look around for the target."])
  | .doWork =>
      let evs := if "phone" ∈ p.possessions then [MindEvent.putDownPhone] else []
      (a, p, [MindEvent.logEvent "ACTION_SYSTEM" "Starting action"] ++ evs ++
             [MindEvent.narration "She sits down at the computer and starts to work."])
  | _ => (a, p, [MindEvent.logEvent "ACTION_SYSTEM" "Starting action"])

/-- on_interrupt hooks: logging (and a narration for the reading
action); no state change in the source. -/
def Action.onInterruptEvents (a : ActionState) : List MindEvent :=
  match a.kind with
  | .readBook => [MindEvent.logEvent "ACTION_SYSTEM" "Action was interrupted.",
                  MindEvent.narration "She places a bookmark in her book and sets it aside."]
  | _ => [MindEvent.logEvent "ACTION_SYSTEM" "Action was interrupted."]

/-! ## Action manager (action_manager.py) -/

namespace ActionManager

/-- The argument passed to start_action: any object; only Action
instances are valid. -/
inductive StartArg
  | valid (a : ActionState)
  | invalid (objRepr : String)
deriving Repr

/-- ActionManager.__init__: a fresh idle filler is current, last action
status unset. -/
def construct (p : Psyche) : Psyche :=
  { p with current_action := some IdleAction.mk1, last_action_status := none }

/-- ActionManager.is_busy: false for the idle filler, else the negation
of the interruptibility flag.  (A missing current action would raise in
the source; the constructed invariant rules it out.) -/
def is_busy (p : Psyche) : Bool :=
  match p.current_action with
  | some a => if a.kind = .idle then false else ! a.is_interruptible
  | none => false

/-- ActionManager.start_action: conflict warning when the current action
is not idle; a valid Action replaces the current action, resets
last_action_status and is started; an invalid object is logged and a
fresh idle filler becomes current instead. -/
def start_action (env : ActEnv) (arg : StartArg) (p : Psyche) :
    Psyche × List MindEvent :=
  let warn := match p.current_action with
    | some a => if a.kind ≠ .idle then
        [MindEvent.logEvent "ACTION_MANAGER" "Warning: starting a new action while another was active."]
      else []
    | none => []
  match arg with
  | .valid a =>
      let p := { p with current_action := some a, last_action_status := none }
      let (a1, p1, evs) := Action.start env a p
      ({ p1 with current_action := some a1 }, warn ++ evs)
  | .invalid r =>
      ({ p with current_action := some IdleAction.mk1 },
       warn ++ [MindEvent.logEvent "ACTION_FAILURE"
         ("Attempted to start an invalid action object: " ++ r)])

/-- ActionManager.interrupt_and_start: on_interrupt on an interruptible
current action, then unconditional replacement and start; does not
reset last_action_status. -/
def interrupt_and_start (env : ActEnv) (a : ActionState) (p : Psyche) :
    Psyche × List MindEvent :=
  let evs := match p.current_action with
    | some cur => if cur.is_interruptible then Action.onInterruptEvents cur else []
    | none => []
  let evs := evs ++ [MindEvent.logEvent "ACTION_MANAGER" "Interrupting! Starting high-priority action."]
  let p := { p with current_action := some a }
  let (a1, p1, evs1) := Action.start env a p
  ({ p1 with current_action := some a1 }, evs ++ evs1)

/-- ActionManager.update: step the current action once; when it reports
finished, record its outcome as last_action_status, optionally log the
plan-resume notice, and install and start a fresh idle filler
(IdleAction.start is a pass). -/
def update (env : ActEnv) (p : Psyche) : Psyche × List MindEvent :=
  match p.current_action with
  | none => (p, [])
  | some a =>
      let (a1, p1, evs) := Action.update env a p
      let p1 := { p1 with current_action := some a1 }
      if a1.is_finished then
        let p2 := { p1 with last_action_status := some a1.was_successful }
        let resume := if a1.kind = .thinkAndRespond ∧ a1.pauses_plan ∧ p2.action_plan ≠ [] then
            [MindEvent.logEvent "ACTION_SYSTEM" "Action IdleAction is being resumed."]
          else []
        ({ p2 with current_action := some IdleAction.mk1 }, evs ++ resume)
      else (p1, evs)

end ActionManager

/-! ## Plan executor (jessica_core.Psyche._execute_next_plan_step) -/

/-- The result of looking a plan-step action name up in
conscious.action_factory and invoking the factory entry. -/
inductive FactoryResult
  | absent
  | notAction
  | action (a : ActionState)

/-- _execute_next_plan_step: (1) a non-empty plan whose previous action
failed aborts the whole plan, clears the mission, resets the status and
issues one failure-context cognition request; (2) otherwise, when the
manager is not busy, pop the first step, resolve it through the action
factory and start it, aborting on a non-Action result; when the plan
has emptied, clear the mission. -/
def execute_next_plan_step (factory : String → FactoryResult) (env : ActEnv)
    (p : Psyche) : Psyche × List MindEvent :=
  if p.action_plan ≠ [] ∧ p.last_action_status = some false then
    let mission_context := p.current_mission.getD "None"
    let p1 := { p with action_plan := [], current_mission := none,
                       last_action_status := none }
    (p1, [MindEvent.logEvent "ACTION_PLAN" "Previous action failed. Aborting plan.",
          MindEvent.cognitionRequest "COGNITIVE_FAILURE: Action Plan Failed"
            p.last_user_id
            ("My plan to " ++ mission_context ++ " failed. I need to re-evaluate what to do next.")])
  else if p.action_plan ≠ [] ∧ ActionManager.is_busy p = false then
    match p.action_plan with
    | [] => (p, [])
    | step :: rest =>
        let p1 := { p with last_action_status := none, action_plan := rest }
        let logEv := MindEvent.logEvent "ACTION_PLAN" ("Executing next step: " ++ step.action)
        let (p2, evs) := match factory step.action with
          | .action a => ActionManager.start_action env (.valid a) p1
          | _ => ({ p1 with action_plan := [], current_mission := none },
                  [MindEvent.logEvent "ACTION_FAILURE"
                    "Plan step did not return a valid Action object. Aborting plan."])
        if p2.action_plan = [] then
          ({ p2 with current_mission := none },
           [logEv] ++ evs ++ [MindEvent.logEvent "ACTION_PLAN" "Action plan completed."])
        else (p2, [logEv] ++ evs)
  else (p, [])

/-! ## Cognition dispatch and rate-limit dormancy (jessica_core) -/

/-- The outcome of psyche.model.generate_content as seen by
_safe_generate_content: a reply with text, a falsy/empty reply, or a
raised exception with its message string. -/
inductive OracleOutcome
  | reply (text : String)
  | emptyReply
  | apiError (msg : String)
deriving DecidableEq, Repr

/-- The Python test: the lowercase form of the exception message
contains the substring rate limit (str.lower is per-character ASCII
lowering here; the in operator is a substring test). -/
def mentionsRateLimit (msg : String) : Bool :=
  let hay := msg.toList.map Char.toLower
  let needle := "rate limit".toList
  (List.range (hay.length + 1)).any (fun i => needle.isPrefixOf (hay.drop i))

/-- Conscious._safe_generate_content: the model is consulted
unconditionally (there is no dormancy gate on this path); non-empty
text is returned, an empty reply logs a warning and returns the empty
string, and an exception returns the empty string after flagging a
60-second rate-limit window when the message mentions a rate limit.
The boolean records that the generative model was consulted. -/
def safe_generate_content (now : ℚ) (outcome : OracleOutcome) (p : Psyche) :
    Psyche × String × Bool :=
  match outcome with
  | .reply t => (p, t, true)
  | .emptyReply => (p, "", true)
  | .apiError msg =>
      if mentionsRateLimit msg then
        ({ p with is_rate_limited := true, rate_limit_until := now + 60 }, "", true)
      else (p, "", true)

/-- Psyche.is_asleep: sleeping, or rate limited with the dormancy
deadline still in the future. -/
def Psyche.is_asleep (now : ℚ) (p : Psyche) : Bool :=
  p.is_sleeping || (p.is_rate_limited && decide (now < p.rate_limit_until))

/-! ## World generation and movement (world_manager.py) -/

/-- A Location descriptor extracted from a world-generation oracle
reply: the JSON object matched by the brace regex, parsed, and carrying
the mandatory name and description keys; objects and type fall back to
[] and "outdoor" through .get. -/
structure LocJson where
  name : String
  description : String
  objects : List String := []
  type : Option String := none
deriving DecidableEq, Repr

/-- WorldManager._discover_and_generate_location.  The oracle argument
gives, per retry attempt, the parsed Location descriptor (none when the
reply was empty, had no JSON object, failed to parse, or lacked the
name/description keys).  Returns the success flag, the updated psyche,
the number of oracle consultations made, and the emitted events.  Zone
lookup and prompt construction only shape the oracle prompt text and
are absorbed into the oracle parameter. -/
def discover_and_generate_location (oracle : List (Option LocJson)) (p : Psyche)
    (source_coords : Coord) (direction_moved : String) :
    Bool × Psyche × Nat × List MindEvent :=
  let ev0 := MindEvent.logEvent "WORLD_GEN" "Undiscovered territory. Thinking of what could be here."
  match getLocationAt p.grid source_coords with
  | none => (false, p, 0, [ev0])
  | some source_location =>
      match parseDir direction_moved with
      | none => (false, p, 0, [ev0])
      | some d =>
          let new_coords := d.delta source_coords
          -- for _ in range(2): break on the first usable descriptor
          let attempted : Option LocJson × Nat :=
            match oracle.getD 0 none with
            | some j => (some j, 1)
            | none =>
                match oracle.getD 1 none with
                | some j => (some j, 2)
                | none => (none, 2)
          match attempted.1 with
          | none =>
              (false, p, attempted.2,
               [ev0, MindEvent.logEvent "WORLD_GEN" "All world generation attempts failed."])
          | some j =>
              let world_objects := j.objects.foldl
                (fun reg obj_name =>
                  if objRegistered reg obj_name then reg
                  else reg ++ [(obj_name, templateOrGeneric obj_name)])
                p.world_objects
              let new_location_data : Location :=
                { name := j.name
                  description := j.description
                  objects := j.objects
                  connections := [(d.opposite.toLabel, source_coords)]
                  type := j.type.getD "outdoor" }
              let src := { source_location with
                connections := connSet source_location.connections direction_moved new_coords }
              let grid := gridSet p.grid source_coords src
              let grid := gridSet grid new_coords new_location_data
              (true,
               { p with grid := grid, world_objects := world_objects },
               attempted.2,
               [ev0, MindEvent.logEvent "WORLD_GEN" "Discovery solidified. Path is now two-way.",
                MindEvent.saveState])

/-- WorldManager.move: fail from an invalid location; an absent edge
triggers on-demand generation, whose failure leaves the state unchanged
and reports failure; otherwise relocate along the edge and narrate (the
dynamic description consultation only feeds the narration text). -/
def move (genOracle : List (Option LocJson)) (direction : String) (p : Psyche) :
    Bool × Psyche × Nat × List MindEvent :=
  match getLocationAt p.grid p.position with
  | none => (false, p, 0, [MindEvent.logEvent "ACTION_FAILURE" "Cannot move from invalid location."])
  | some current_loc_data =>
      match findConn current_loc_data direction with
      | none =>
          -- absent edge: on-demand generation, failure leaves state as is
          (match discover_and_generate_location genOracle p p.position direction with
           | (false, p1, calls, evs) =>
               (false, p1, calls,
                evs ++ [MindEvent.narration "She sees no clear path and decides against it."])
           | (true, p1, calls, evs) =>
               -- re-read the connection the generation just created (its
               -- absence would raise KeyError in the source)
               match (getLocationAt p1.grid p1.position).bind (fun l => findConn l direction) with
               | some target_coords =>
                   (true, { p1 with position := target_coords }, calls,
                    evs ++ [MindEvent.narration "She moves, entering the next location."])
               | none => (false, p1, calls, evs))
      | some target_coords =>
          (true, { p with position := target_coords }, 0,
           [MindEvent.narration "She moves, entering the next location."])

/-! ## Pathfinding (world_manager.find_path)

The A-star loop is embedded with explicit fuel; heapq is modelled by
popping the minimum entry under Python tuple comparison (entries have
pairwise distinct coordinates, so the minimum is unique). -/

/-- The Manhattan heuristic of find_path. -/
def heuristic (a b : Coord) : Nat :=
  (a.1 - b.1).natAbs + (a.2.1 - b.2.1).natAbs + (a.2.2 - b.2.2).natAbs

/-- Python tuple comparison on heap entries (f, (x, y, z)). -/
def entryLe (x y : Nat × Coord) : Bool :=
  if x.1 ≠ y.1 then decide (x.1 < y.1)
  else if x.2.1 ≠ y.2.1 then decide (x.2.1 < y.2.1)
  else if x.2.2.1 ≠ y.2.2.1 then decide (x.2.2.1 < y.2.2.1)
  else decide (x.2.2.2 ≤ y.2.2.2)

/-- The minimum heap entry (heapq.heappop pops it). -/
def heapMin : List (Nat × Coord) → Option (Nat × Coord)
  | [] => none
  | x :: xs => some (xs.foldl (fun m e => if entryLe m e then m else e) x)

/-- Remove the first occurrence of an entry from the heap list. -/
def removeFirst (e : Nat × Coord) : List (Nat × Coord) → List (Nat × Coord)
  | [] => []
  | x :: xs => if x = e then xs else x :: removeFirst e xs

/-- The mutable state of the A-star loop. -/
structure AStarState where
  open_set : List (Nat × Coord)
  came_from : List (Coord × Coord)
  g_score : List (Coord × Nat)
  f_score : List (Coord × Nat)
deriving DecidableEq, Repr

/-- The result of find_path: the Python None (no path), a direction
label list, or exhaustion of the embedding fuel. -/
inductive PathResult
  | outOfFuel
  | noPath
  | path (labels : List String)
deriving DecidableEq, Repr

/-- The backtracking loop of find_path: follow came_from from the goal,
re-deriving at each hop the first connection key of the previous
location that reaches the current one, and reverse the collected
labels.  Fuel bounds the chain length (a cyclic chain would loop
forever in the source). -/
def reconstructPath (g : Grid) (came_from : List (Coord × Coord)) :
    Nat → Coord → List String → Option (List String)
  | 0, _, _ => none
  | fuel + 1, current, acc =>
      match alookup came_from current with
      | none => some acc.reverse
      | some previous =>
          let seg := match getLocationAt g previous with
            | none => []
            | some ploc =>
                match ploc.connections.find? (fun e => e.2 = current) with
                | some e => [e.1]
                | none => []
          reconstructPath g came_from fuel previous (acc ++ seg)

/-- One relaxation pass over the connections of the popped location
(the inner for loop of find_path). -/
def relaxNeighbors (goal current : Coord) (conns : List (String × Coord))
    (st : AStarState) : AStarState :=
  conns.foldl (fun acc e =>
    let neighbor := e.2
    let tentative := (alookup acc.g_score current).getD 0 + 1
    let better := match alookup acc.g_score neighbor with
      | some gn => decide (tentative < gn)
      | none => true
    if better then
      let acc := { acc with
        came_from := aset acc.came_from neighbor current
        g_score := aset acc.g_score neighbor tentative
        f_score := aset acc.f_score neighbor (tentative + heuristic neighbor goal) }
      if (acc.open_set.find? (fun i => i.2 = neighbor)).isSome then acc
      else { acc with open_set := acc.open_set ++ [(tentative + heuristic neighbor goal, neighbor)] }
    else acc) st

/-- The while loop of find_path. -/
def astarLoop (g : Grid) (goal : Coord) : Nat → AStarState → PathResult
  | 0, _ => .outOfFuel
  | fuel + 1, st =>
      match heapMin st.open_set with
      | none => .noPath
      | some entry =>
          let current := entry.2
          let rest := removeFirst entry st.open_set
          if current = goal then
            match reconstructPath g st.came_from (st.came_from.length + 1) current [] with
            | some labels => .path labels
            | none => .outOfFuel
          else
            match getLocationAt g current with
            | none => astarLoop g goal fuel { st with open_set := rest }
            | some loc =>
                astarLoop g goal fuel
                  (relaxNeighbors goal current loc.connections { st with open_set := rest })

/-- WorldManager.find_path: initial heap (0, start), g and f seeded for
the start node, then the loop. -/
def find_path (g : Grid) (fuel : Nat) (start goal : Coord) : PathResult :=
  astarLoop g goal fuel
    { open_set := [(0, start)]
      came_from := []
      g_score := [(start, 0)]
      f_score := [(start, heuristic start goal)] }

/-- Reachability along connection edges of the grid. -/
inductive Reach (g : Grid) (a : Coord) : Coord → Prop
  | refl : Reach g a a
  | step {b c : Coord} {loc : Location} {d : String} :
      Reach g a b → getLocationAt g b = some loc → (d, c) ∈ loc.connections →
      Reach g a c

/-! ## Claim-level observations -/

/-- All five affect scalars lie in the unit interval. -/
def InUnitRange (s : LimbicState) : Prop :=
  0 ≤ s.dopamine ∧ s.dopamine ≤ 1 ∧
  0 ≤ s.cortisol ∧ s.cortisol ≤ 1 ∧
  0 ≤ s.oxytocin ∧ s.oxytocin ≤ 1 ∧
  0 ≤ s.serotonin ∧ s.serotonin ≤ 1 ∧
  0 ≤ s.norepinephrine ∧ s.norepinephrine ≤ 1

instance (s : LimbicState) : Decidable (InUnitRange s) := by
  unfold InUnitRange; infer_instance

/-- Number of cognition requests among emitted events. -/
def countCog (evs : List MindEvent) : Nat :=
  (evs.filter (fun e => match e with
    | .cognitionRequest _ _ _ => true
    | _ => false)).length

/-- The three terminal outcomes of a bounded search. -/
inductive SearchOutcome
  | found | notFound | gaveUp
deriving DecidableEq, Repr

/-- Classification of a finished search action from its recorded
result: the success flag distinguishes found; among failures, an empty
queue is the clean not-found and a non-empty queue is the mid-search
give-up. -/
def searchOutcome (a : ActionState) : Option SearchOutcome :=
  if a.is_finished = false then none
  else if a.was_successful then some .found
  else if a.search_queue = [] then some .notFound
  else some .gaveUp

/-- The coordinate a search step visits this beat (the queue head it
pops and relocates to), if any: nothing when the action is already
finished or its beat timeout fires first. -/
def searchStepVisit (a : ActionState) : List Coord :=
  if a.is_finished then []
  else if a.duration ≤ a.beats_elapsed + 1 then []
  else
    match a.search_queue with
    | [] => []
    | (c, _) :: _ => [c]

/-- Run n beats of the current action, collecting the coordinates the
search visits. -/
def searchRun (env : ActEnv) : Nat → ActionState → Psyche →
    ActionState × Psyche × List Coord
  | 0, a, p => (a, p, [])
  | n + 1, a, p =>
      let v := searchStepVisit a
      let s1 := Action.update env a p
      let r := searchRun env n s1.1 s1.2.1
      (r.1, r.2.1, v ++ r.2.2)

/-- The invariant SearchAction maintains between beats: queued
coordinates are pairwise distinct and all recorded in the visited set,
and when the search did not start outdoors every queued coordinate with
location data is a non-outdoor location. -/
def SearchInv (grid : Grid) (a : ActionState) : Prop :=
  (a.search_queue.map Prod.fst).Nodup ∧
  (∀ c ∈ a.search_queue.map Prod.fst, c ∈ a.visited_coords) ∧
  (a.search_is_outdoors = false →
    ∀ cd ∈ a.search_queue, ∀ loc, getLocationAt grid cd.1 = some loc →
      loc.type ≠ "outdoor")

/-- The A-star loop state reached after the first iteration when the
start node is popped: start is out of the heap, and T lists (in
insertion order) the distinct non-start neighbors relaxed so far, each
with g-score 1, parent start, and one open-heap entry. -/
def relaxState (start goal : Coord) (T : List Coord) : AStarState :=
  { open_set := T.map (fun n => (1 + heuristic n goal, n))
    came_from := T.map (fun n => (n, start))
    g_score := (start, 0) :: T.map (fun n => (n, 1))
    f_score := (start, heuristic start goal) :: T.map (fun n => (n, 1 + heuristic n goal)) }

/-- Every came_from entry records a real edge of the grid: the parent
location exists and one of its connections reaches the child. -/
def CameInv (g : Grid) (came : List (Coord × Coord)) : Prop :=
  ∀ k prev, alookup came k = some prev →
    ∃ (ploc : Location) (e : String × Coord),
      getLocationAt g prev = some ploc ∧ e ∈ ploc.connections ∧ e.2 = k

/-! ## Concrete sample world for witnesses -/

/-- The Living Room of the default world state. -/
def livingRoom : Location :=
  { name := "Living Room", description := "My apartment living room.",
    objects := ["window", "computer", "phone", "bookshelf", "easel"],
    connections := [("south", ((0 : Int), (-1 : Int), (0 : Int))),
                    ("east", ((1 : Int), (0 : Int), (0 : Int))),
                    ("west", ((-1 : Int), (0 : Int), (0 : Int)))],
    type := "indoor" }

/-- The Bedroom of the default world state. -/
def bedroom : Location :=
  { name := "Bedroom", description := "My bedroom.", objects := ["bed"],
    connections := [("north", ((0 : Int), (0 : Int), (0 : Int)))],
    type := "indoor" }

/-- The Apartment Hallway of the default world state. -/
def hallway : Location :=
  { name := "Apartment Hallway", description := "The narrow hallway.",
    objects := ["main_door", "coat_rack"],
    connections := [("west", ((0 : Int), (0 : Int), (0 : Int)))],
    type := "indoor" }

/-- The Kitchen of the default world state. -/
def kitchen : Location :=
  { name := "Kitchen", description := "A small, clean kitchen.",
    objects := ["refrigerator", "stove"],
    connections := [("east", ((0 : Int), (0 : Int), (0 : Int)))],
    type := "indoor" }

/-- The grid of Psyche._get_default_world_state. -/
def defaultGrid : Grid :=
  [(((0 : Int), (0 : Int), (0 : Int)), livingRoom),
   (((0 : Int), (-1 : Int), (0 : Int)), bedroom),
   (((1 : Int), (0 : Int), (0 : Int)), hallway),
   (((-1 : Int), (0 : Int), (0 : Int)), kitchen)]

/-- A psyche in the default world, standing in the Living Room. -/
def samplePsyche : Psyche :=
  { grid := defaultGrid, world_objects := [],
    position := ((0 : Int), (0 : Int), (0 : Int)) }

/-- Plan-driving psyche whose previous plan action failed. -/
def failedPlanPsyche : Psyche :=
  { samplePsyche with
    action_plan := [{ action := "explore", goal := "go east" }],
    current_mission := some "explore the street",
    last_action_status := some false }

/-- Psyche inside an active rate-limit dormancy window ending at 100. -/
def dormantPsyche : Psyche :=
  { samplePsyche with is_rate_limited := true, rate_limit_until := 100 }

/-- A Location descriptor as produced by a successful generation
attempt. -/
def sampleLocJson : LocJson :=
  { name := "Rooftop Garden", description := "A quiet rooftop garden.",
    objects := ["bench", "park_fountain"], type := some "outdoor" }

/-- An outdoor street connected east to an indoor shop: exhibits a
search that begins outdoors crossing into an indoor location. -/
def streetLoc : Location :=
  { name := "Street", description := "An open street.", objects := [],
    connections := [("east", ((1 : Int), (0 : Int), (0 : Int)))],
    type := "outdoor" }

/-- The indoor shop east of the street. -/
def shopLoc : Location :=
  { name := "Shop", description := "A small shop.",
    objects := ["bag_of_chips"],
    connections := [("west", ((0 : Int), (0 : Int), (0 : Int)))],
    type := "indoor" }

def crossGrid : Grid :=
  [(((0 : Int), (0 : Int), (0 : Int)), streetLoc),
   (((1 : Int), (0 : Int), (0 : Int)), shopLoc)]

/-- A psyche standing on the outdoor street. -/
def crossPsyche : Psyche :=
  { grid := crossGrid, world_objects := [],
    position := ((0 : Int), (0 : Int), (0 : Int)) }

/-! # Theorems -/

/-! ## Dictionary lemmas -/

theorem alookup_aset_same {α β : Type} [DecidableEq α]
    (l : List (α × β)) (k : α) (v : β) : alookup (aset l k v) k = some v := by
  induction l with
  | nil => simp [alookup, aset]
  | cons x xs ih =>
      by_cases hx : x.1 = k
      · simp [alookup, aset, hx]
      · simp only [aset, hx, if_false, if_neg hx]
        simpa [alookup, hx] using ih

theorem alookup_aset_other {α β : Type} [DecidableEq α]
    (l : List (α × β)) (k k' : α) (v : β) (h : k' ≠ k) :
    alookup (aset l k v) k' = alookup l k' := by
  induction l with
  | nil =>
      have hk : ¬ (k = k') := fun he => h he.symm
      simp [alookup, aset, hk]
  | cons x xs ih =>
      by_cases hx : x.1 = k
      · simp only [aset, hx, if_pos rfl, if_true]
        have hk : ¬ (k = k') := fun he => h he.symm
        have hxk : ¬ (x.1 = k') := by rw [hx]; exact hk
        simp [alookup, hk, hxk]
      · simp only [aset, hx, if_false, if_neg hx]
        by_cases hx' : x.1 = k'
        · simp [alookup, hx']
        · simpa [alookup, hx'] using ih

/-- Mood-profile derivation changes only the mood fields, never the
five scalars. -/
theorem updateMoodProfile_scalars (s : LimbicState) :
    s.updateMoodProfile.dopamine = s.dopamine ∧
    s.updateMoodProfile.cortisol = s.cortisol ∧
    s.updateMoodProfile.oxytocin = s.oxytocin ∧
    s.updateMoodProfile.serotonin = s.serotonin ∧
    s.updateMoodProfile.norepinephrine = s.norepinephrine :=
  ⟨rfl, rfl, rfl, rfl, rfl⟩

theorem updateMoodProfile_inUnitRange (s : LimbicState) (h : InUnitRange s) :
    InUnitRange s.updateMoodProfile := by
  obtain ⟨h1, h2, h3, h4, h5⟩ := updateMoodProfile_scalars s
  unfold InUnitRange at h ⊢
  rw [h1, h2, h3, h4, h5]
  exact h

theorem inUnitRange_of_clamped (t : LimbicState) (a b c d e : ℚ) :
    InUnitRange { t with
      dopamine := max 0 (min 1 a), cortisol := max 0 (min 1 b),
      oxytocin := max 0 (min 1 c), serotonin := max 0 (min 1 d),
      norepinephrine := max 0 (min 1 e) } := by
  refine ⟨?_, ?_, ?_, ?_, ?_, ?_, ?_, ?_, ?_, ?_⟩ <;>
    first
      | exact le_max_left 0 _
      | exact max_le (by norm_num) (min_le_left 1 _)

/-- C9: After every Affect Engine update, each of the five affect
scalars (dopamine, cortisol, oxytocin, serotonin, norepinephrine) lies
within [0,1]; stated for the state reached after the last update of an
arbitrary update sequence from an arbitrary starting state, which
covers every update of any sequence from any in-range state. -/
theorem claim_C9_affect_scalars_clamped (s : LimbicState)
    (envs : List LimbicEnv) (env : LimbicEnv) :
    InUnitRange (LimbicState.run s (envs ++ [env])) := by
  unfold LimbicState.run
  rw [List.foldl_append, List.foldl_cons, List.foldl_nil]
  set t := List.foldl (fun st e => st.update e) s envs with ht
  show InUnitRange (t.update env)
  unfold LimbicState.update
  dsimp only
  exact updateMoodProfile_inUnitRange _ (inUnitRange_of_clamped _ _ _ _ _ _)

/-! ## C10: always-successful timed actions -/

theorem baseFinish_success (b : Bool) (a : ActionState) (p : Psyche)
    (hf : a.is_finished = false) :
    (Action.baseFinish b a p).1.was_successful = b ∧
    (Action.baseFinish b a p).1.is_finished = true := by
  simp [Action.baseFinish, hf]

/-- C10: For ReadBookAction, JournalAction, DoWorkAction and
LookOutOfWindowAction, every finish call on a not-yet-finished action
records a successful outcome regardless of the success argument passed
in, including the automatic finish(success=False) the base update
issues when the duration elapses; so these actions never hand a failure
to the plan-abort mechanism. -/
theorem claim_C10_timed_actions_always_succeed (env : ActEnv) (b : Bool)
    (a : ActionState) (p : Psyche)
    (hk : a.kind = .readBook ∨ a.kind = .journal ∨ a.kind = .doWork ∨
      a.kind = .lookOutOfWindow)
    (hf : a.is_finished = false) :
    (Action.finish env b a p).1.was_successful = true ∧
    (a.duration ≤ a.beats_elapsed + 1 →
      (Action.update env a p).1.was_successful = true) := by
  have hfin : ∀ (b1 : Bool) (p1 : Psyche) (a1 : ActionState), a1.kind = a.kind →
      a1.is_finished = false → (Action.finish env b1 a1 p1).1.was_successful = true := by
    intro b1 p1 a1 hk1 hf1
    rcases hk with hk | hk | hk | hk <;>
      · rw [hk] at hk1
        simp [Action.finish, hk1, (baseFinish_success _ _ _ hf1).1]
  refine ⟨hfin b p a rfl hf, fun ht => ?_⟩
  have hupd : Action.update env a p = Action.baseUpdate env a p ∨
      Action.update env a p = ReadBookAction.updateBody env a p := by
    rcases hk with hk | hk | hk | hk <;> simp [Action.update, hk]
  have hbase : (Action.baseUpdate env a p).1.was_successful = true := by
    unfold Action.baseUpdate
    dsimp only
    rw [if_pos ⟨ht, hf⟩]
    exact hfin false p { a with beats_elapsed := a.beats_elapsed + 1 } rfl hf
  rcases hupd with h | h
  · rw [h]; exact hbase
  · rw [h]
    unfold ReadBookAction.updateBody
    dsimp only
    rcases hb : Action.baseUpdate env a p with ⟨a1, p1, evs1⟩
    rw [hb] at hbase
    exact hbase

/-- Witness for C10: a reading action one beat from its deadline; both
an explicit finish(success=False) and the automatic timeout finish
record success. -/
theorem claim_C10_timed_actions_always_succeed_witness :
    ({ ReadBookAction.mk1 "novel" with beats_elapsed := 4 } : ActionState).is_finished = false ∧
    (Action.finish {} false { ReadBookAction.mk1 "novel" with beats_elapsed := 4 } samplePsyche).1.was_successful = true ∧
    (Action.update {} { ReadBookAction.mk1 "novel" with beats_elapsed := 4 } samplePsyche).1.was_successful = true := by
  have h := claim_C10_timed_actions_always_succeed {} false
    { ReadBookAction.mk1 "novel" with beats_elapsed := 4 } samplePsyche
    (Or.inl rfl) rfl
  exact ⟨rfl, h.1, h.2 (by decide)⟩

/-! ## C1: plan abort on recorded failure -/

/-- C1: On a beat where the action plan is non-empty and the action
manager recorded a failed outcome, the executor aborts: the whole
remaining plan is discarded, the mission is cleared, the status is
reset, exactly one failure-context cognition request is issued, and no
plan step is started (the current action is untouched). -/
theorem claim_C1_plan_abort_on_failure (factory : String → FactoryResult)
    (env : ActEnv) (p : Psyche)
    (hplan : p.action_plan ≠ [])
    (hfail : p.last_action_status = some false) :
    (execute_next_plan_step factory env p).1.action_plan = [] ∧
    (execute_next_plan_step factory env p).1.current_mission = none ∧
    (execute_next_plan_step factory env p).1.last_action_status = none ∧
    countCog (execute_next_plan_step factory env p).2 = 1 ∧
    (execute_next_plan_step factory env p).1.current_action = p.current_action := by
  unfold execute_next_plan_step
  rw [if_pos ⟨hplan, hfail⟩]
  exact ⟨rfl, rfl, rfl, rfl, rfl⟩

/-- Witness for C1: a one-step plan with a recorded failure is wholly
discarded, the mission cleared, and one cognition request issued. -/
theorem claim_C1_plan_abort_on_failure_witness :
    failedPlanPsyche.action_plan ≠ [] ∧
    failedPlanPsyche.last_action_status = some false ∧
    (execute_next_plan_step (fun _ => .absent) {} failedPlanPsyche).1.action_plan = [] ∧
    (execute_next_plan_step (fun _ => .absent) {} failedPlanPsyche).1.current_mission = none ∧
    countCog (execute_next_plan_step (fun _ => .absent) {} failedPlanPsyche).2 = 1 := by
  have h := claim_C1_plan_abort_on_failure (fun _ => .absent) {} failedPlanPsyche
    (by decide) rfl
  exact ⟨by decide, rfl, h.1, h.2.1, h.2.2.2.1⟩

/-! ## C7: rate-limit dormancy -/

/-- C7 counterexample: inside an active dormancy window (rate limited
until 100, queried at 50) a cognition consultation is not a no-op:
_safe_generate_content still consults the generative model and returns
its reply text.  The dormancy predicate has no gate on this path. -/
theorem claim_C7_counterexample_consultation_not_skipped :
    Psyche.is_asleep 50 dormantPsyche = true ∧
    (safe_generate_content 50 (.reply "ok") dormantPsyche).2.2 = true ∧
    (safe_generate_content 50 (.reply "ok") dormantPsyche).2.1 = "ok" := by
  refine ⟨by decide, rfl, rfl⟩

/-- C7 amended: a single quota-exceeded oracle error - hence also the
second of two consecutive ones - places the agent in dormancy for a
fixed 60-second window measured from the error; the dormancy predicate
is_asleep holds exactly while the window is open (given the agent is
not also sleeping) and clears automatically once the window elapses,
the deadline being compared lazily on every read (once per beat via the
affect update); however, cognition consultations during the window are
not suppressed: the generative model is consulted on every call
regardless of dormancy. -/
theorem claim_C7_amended_dormancy_window (p : Psyche) (t1 t2 : ℚ)
    (msg1 msg2 : String)
    (h1 : mentionsRateLimit msg1 = true)
    (h2 : mentionsRateLimit msg2 = true) :
    ((safe_generate_content t2 (.apiError msg2)
        (safe_generate_content t1 (.apiError msg1) p).1).1.is_rate_limited = true) ∧
    ((safe_generate_content t2 (.apiError msg2)
        (safe_generate_content t1 (.apiError msg1) p).1).1.rate_limit_until = t2 + 60) ∧
    (∀ now : ℚ, (safe_generate_content t2 (.apiError msg2)
        (safe_generate_content t1 (.apiError msg1) p).1).1.is_sleeping = false →
      (Psyche.is_asleep now (safe_generate_content t2 (.apiError msg2)
        (safe_generate_content t1 (.apiError msg1) p).1).1 = true ↔ now < t2 + 60)) ∧
    (∀ (now : ℚ) (outcome : OracleOutcome),
      (safe_generate_content now outcome (safe_generate_content t2 (.apiError msg2)
        (safe_generate_content t1 (.apiError msg1) p).1).1).2.2 = true) := by
  have step : ∀ (t : ℚ) (msg : String) (q : Psyche), mentionsRateLimit msg = true →
      (safe_generate_content t (.apiError msg) q).1 =
        { q with is_rate_limited := true, rate_limit_until := t + 60 } := by
    intro t msg q hm
    simp [safe_generate_content, hm]
  rw [step t1 msg1 p h1, step t2 msg2 _ h2]
  refine ⟨rfl, rfl, fun now hs => ?_, fun now outcome => ?_⟩
  · have hps : p.is_sleeping = false := hs
    unfold Psyche.is_asleep
    show (p.is_sleeping || (true && decide (now < t2 + 60))) = true ↔ now < t2 + 60
    rw [hps]
    simp
  · cases outcome with
    | reply t => rfl
    | emptyReply => rfl
    | apiError msg =>
        unfold safe_generate_content
        dsimp only
        split <;> rfl

/-- Witness for C7 amended: two consecutive quota errors at beats 0 and
10 open a window until 70; asleep at 30, awake at 80, and the model is
still consulted at 30. -/
theorem claim_C7_amended_dormancy_window_witness :
    mentionsRateLimit "Rate limit exceeded" = true ∧
    (safe_generate_content 10 (.apiError "Rate limit exceeded")
      (safe_generate_content 0 (.apiError "Rate limit exceeded") samplePsyche).1).1.rate_limit_until = 70 ∧
    Psyche.is_asleep 30 (safe_generate_content 10 (.apiError "Rate limit exceeded")
      (safe_generate_content 0 (.apiError "Rate limit exceeded") samplePsyche).1).1 = true ∧
    Psyche.is_asleep 80 (safe_generate_content 10 (.apiError "Rate limit exceeded")
      (safe_generate_content 0 (.apiError "Rate limit exceeded") samplePsyche).1).1 = false ∧
    (safe_generate_content 30 (.reply "hello")
      (safe_generate_content 10 (.apiError "Rate limit exceeded")
        (safe_generate_content 0 (.apiError "Rate limit exceeded") samplePsyche).1).1).2.2 = true := by
  have h := claim_C7_amended_dormancy_window samplePsyche 0 10
    "Rate limit exceeded" "Rate limit exceeded" (by decide) (by decide)
  refine ⟨by decide, by rw [h.2.1]; norm_num, ?_, ?_, h.2.2.2 30 (.reply "hello")⟩
  · exact (h.2.2.1 30 rfl).mpr (by norm_num)
  · have hiff := h.2.2.1 80 rfl
    rcases hb : Psyche.is_asleep 80 (safe_generate_content 10 (.apiError "Rate limit exceeded")
      (safe_generate_content 0 (.apiError "Rate limit exceeded") samplePsyche).1).1 with _ | _
    · rfl
    · exfalso
      rw [hb] at hiff
      have h80 : (80 : ℚ) < 10 + 60 := hiff.mp rfl
      norm_num at h80

/-! ## C8: exactly one current action -/

/-- C8: After construction and after each public action manager
operation, exactly one action instance is current (never none); and
starting an invalid non-Action object logs the failure and installs a
fresh idle filler as the current action instead of crashing or leaving
no current action. -/
theorem claim_C8_exactly_one_current_action (env : ActEnv) (p : Psyche)
    (arg : ActionManager.StartArg) (a : ActionState) :
    (ActionManager.construct p).current_action.isSome = true ∧
    (ActionManager.start_action env arg p).1.current_action.isSome = true ∧
    (ActionManager.interrupt_and_start env a p).1.current_action.isSome = true ∧
    (p.current_action.isSome = true →
      (ActionManager.update env p).1.current_action.isSome = true) ∧
    (∀ r, (ActionManager.start_action env (.invalid r) p).1.current_action =
      some IdleAction.mk1) := by
  refine ⟨rfl, ?_, ?_, ?_, fun r => rfl⟩
  · cases arg with
    | invalid r => rfl
    | valid a0 =>
        unfold ActionManager.start_action
        dsimp only
        rcases Action.start env a0
          { p with current_action := some a0, last_action_status := none } with ⟨a1, p1, evs⟩
        rfl
  · unfold ActionManager.interrupt_and_start
    dsimp only
    rcases Action.start env a { p with current_action := some a } with ⟨a1, p1, evs⟩
    rfl
  · intro h
    rcases hc : p.current_action with _ | a0
    · rw [hc] at h; exact absurd h (by simp)
    · unfold ActionManager.update
      rw [hc]
      dsimp only
      rcases Action.update env a0 p with ⟨a1, p1, evs⟩
      dsimp only
      split
      · rfl
      · rfl

/-- Witness for C8: the update clause at a psyche whose current action
is the idle filler. -/
theorem claim_C8_exactly_one_current_action_witness :
    samplePsyche.current_action.isSome = true ∧
    (ActionManager.update {} samplePsyche).1.current_action.isSome = true ∧
    (ActionManager.start_action {} (.invalid "None") samplePsyche).1.current_action =
      some IdleAction.mk1 := by
  have h := claim_C8_exactly_one_current_action {} samplePsyche
    (.invalid "None") IdleAction.mk1
  exact ⟨rfl, h.2.2.2.1 rfl, h.2.2.2.2 "None"⟩

/-! ## C2: generation creates a bidirectional edge -/

theorem parseDir_toLabel (d : Dir) : parseDir d.toLabel = some d := by
  cases d <;> rfl

theorem Dir.delta_ne (d : Dir) (a : Coord) : d.delta a ≠ a := by
  obtain ⟨x, y, z⟩ := a
  cases d <;> simp [Dir.delta, Prod.ext_iff]

theorem alookup_singleton {α β : Type} [DecidableEq α] (k : α) (v : β) :
    alookup [(k, v)] k = some v := by
  simp [alookup]

/-- Writing the updated source location and then the fresh destination
location leaves both edges visible in the grid. -/
theorem bidirectional_after_sets (g : Grid) (A : Coord) (d : Dir)
    (src newloc : Location)
    (hsrc : findConn src d.toLabel = some (d.delta A))
    (hnew : findConn newloc d.opposite.toLabel = some A) :
    ∃ locA locB,
      getLocationAt (gridSet (gridSet g A src) (d.delta A) newloc) A = some locA ∧
      findConn locA d.toLabel = some (d.delta A) ∧
      getLocationAt (gridSet (gridSet g A src) (d.delta A) newloc) (d.delta A) = some locB ∧
      findConn locB d.opposite.toLabel = some A := by
  refine ⟨src, newloc, ?_, hsrc, ?_, hnew⟩
  · show alookup (aset (aset g A src) (d.delta A) newloc) A = some src
    rw [alookup_aset_other _ _ _ _ (Ne.symm (Dir.delta_ne d A))]
    exact alookup_aset_same _ _ _
  · exact alookup_aset_same _ _ _

/-- C2: Whenever on-demand generation succeeds in creating a new
location in direction d from source A, the same step creates both the
forward edge A-d-B at the source and the mechanically derived reverse
edge B-opposite(d)-A at the new location (north/south, east/west,
up/down swapped), where B is the coordinate delta of d from A; the
traveled edge is bidirectional immediately after generation. -/
theorem claim_C2_generation_bidirectional_edge
    (oracle : List (Option LocJson)) (p : Psyche) (A : Coord) (d : Dir)
    (source_location : Location) (j : LocJson)
    (hA : getLocationAt p.grid A = some source_location)
    (horacle : List.getD oracle 0 none = some j ∨
      (List.getD oracle 0 none = none ∧ List.getD oracle 1 none = some j)) :
    (discover_and_generate_location oracle p A d.toLabel).1 = true ∧
    ∃ locA locB,
      getLocationAt (discover_and_generate_location oracle p A d.toLabel).2.1.grid A = some locA ∧
      findConn locA d.toLabel = some (d.delta A) ∧
      getLocationAt (discover_and_generate_location oracle p A d.toLabel).2.1.grid (d.delta A) = some locB ∧
      findConn locB d.opposite.toLabel = some A := by
  rcases horacle with h0 | ⟨h0, h1⟩
  · simp only [discover_and_generate_location, hA, parseDir_toLabel, h0]
    exact ⟨trivial, bidirectional_after_sets p.grid A d _ _
      (alookup_aset_same _ _ _) (alookup_singleton _ _)⟩
  · simp only [discover_and_generate_location, hA, parseDir_toLabel, h0, h1]
    exact ⟨trivial, bidirectional_after_sets p.grid A d _ _
      (alookup_aset_same _ _ _) (alookup_singleton _ _)⟩

/-- Witness for C2: generating the Rooftop Garden north of the Living
Room creates the north edge at (0,0,0) and the south edge back from
(0,1,0). -/
theorem claim_C2_generation_bidirectional_edge_witness :
    getLocationAt samplePsyche.grid ((0 : Int), (0 : Int), (0 : Int)) = some livingRoom ∧
    List.getD [some sampleLocJson] 0 none = some sampleLocJson ∧
    (discover_and_generate_location [some sampleLocJson] samplePsyche
      ((0 : Int), (0 : Int), (0 : Int)) Dir.north.toLabel).1 = true ∧
    ∃ locA locB,
      getLocationAt (discover_and_generate_location [some sampleLocJson] samplePsyche
        ((0 : Int), (0 : Int), (0 : Int)) Dir.north.toLabel).2.1.grid
        ((0 : Int), (0 : Int), (0 : Int)) = some locA ∧
      findConn locA Dir.north.toLabel = some (Dir.north.delta ((0 : Int), (0 : Int), (0 : Int))) ∧
      getLocationAt (discover_and_generate_location [some sampleLocJson] samplePsyche
        ((0 : Int), (0 : Int), (0 : Int)) Dir.north.toLabel).2.1.grid
        (Dir.north.delta ((0 : Int), (0 : Int), (0 : Int))) = some locB ∧
      findConn locB Dir.north.opposite.toLabel = some ((0 : Int), (0 : Int), (0 : Int)) := by
  have h := claim_C2_generation_bidirectional_edge [some sampleLocJson] samplePsyche
    ((0 : Int), (0 : Int), (0 : Int)) Dir.north livingRoom sampleLocJson
    (by decide) (Or.inl rfl)
  exact ⟨by decide, rfl, h.1, h.2⟩

/-! ## C3: bounded generation attempts, unchanged state on failure -/

theorem discover_calls_le_two (oracle : List (Option LocJson)) (p : Psyche)
    (src : Coord) (dir : String) :
    (discover_and_generate_location oracle p src dir).2.2.1 ≤ 2 := by
  unfold discover_and_generate_location
  rcases getLocationAt p.grid src with _ | loc
  · simp
  rcases parseDir dir with _ | d
  · simp
  dsimp only
  rcases List.getD oracle 0 none with _ | j0
  · rcases List.getD oracle 1 none with _ | j1 <;> simp
  · simp

theorem discover_fail_state_unchanged (oracle : List (Option LocJson))
    (p : Psyche) (src : Coord) (dir : String)
    (h0 : List.getD oracle 0 none = none)
    (h1 : List.getD oracle 1 none = none) :
    (discover_and_generate_location oracle p src dir).1 = false ∧
    (discover_and_generate_location oracle p src dir).2.1 = p := by
  unfold discover_and_generate_location
  rcases getLocationAt p.grid src with _ | loc
  · exact ⟨rfl, rfl⟩
  rcases parseDir dir with _ | d
  · exact ⟨rfl, rfl⟩
  dsimp only
  rw [h0, h1]
  exact ⟨rfl, rfl⟩

/-- C3: A move in a direction with no existing edge consults the
world-generation oracle at most twice; and when both attempts fail to
yield a usable Location descriptor, move returns failure and the world
grid, the object registry and the agent position are exactly as before
the call. -/
theorem claim_C3_move_bounded_generation (oracle : List (Option LocJson))
    (p : Psyche) (direction : String) (loc : Location)
    (hloc : getLocationAt p.grid p.position = some loc)
    (hnoedge : findConn loc direction = none) :
    (move oracle direction p).2.2.1 ≤ 2 ∧
    (List.getD oracle 0 none = none → List.getD oracle 1 none = none →
      (move oracle direction p).1 = false ∧
      (move oracle direction p).2.1.grid = p.grid ∧
      (move oracle direction p).2.1.world_objects = p.world_objects ∧
      (move oracle direction p).2.1.position = p.position) := by
  have hcalls := discover_calls_le_two oracle p p.position direction
  have hfailure := discover_fail_state_unchanged oracle p p.position direction
  unfold move
  rw [hloc]
  dsimp only
  rw [hnoedge]
  rcases hg : discover_and_generate_location oracle p p.position direction
    with ⟨ok, p1, calls, evs⟩
  rw [hg] at hcalls hfailure
  dsimp only at hcalls hfailure
  dsimp only
  cases ok
  · -- generation failed: state unchanged and movement fails
    refine ⟨by simpa using hcalls, fun h0 h1 => ?_⟩
    obtain ⟨-, hsame⟩ := hfailure h0 h1
    rw [hsame]
    exact ⟨rfl, rfl, rfl, rfl⟩
  · -- generation succeeded: only the attempt bound is claimed
    refine ⟨?_, fun h0 h1 => absurd (hfailure h0 h1).1 (by simp)⟩
    dsimp only
    split <;> simpa using hcalls

/-- Witness for C3: moving north from the Living Room with both oracle
attempts failing leaves the default world untouched and reports
failure after exactly 2 consultations. -/
theorem claim_C3_move_bounded_generation_witness :
    getLocationAt samplePsyche.grid samplePsyche.position = some livingRoom ∧
    findConn livingRoom "north" = none ∧
    (move [none, none] "north" samplePsyche).2.2.1 ≤ 2 ∧
    (move [none, none] "north" samplePsyche).1 = false ∧
    (move [none, none] "north" samplePsyche).2.1.grid = samplePsyche.grid := by
  have h := claim_C3_move_bounded_generation [none, none] samplePsyche "north"
    livingRoom (by decide) (by decide)
  have h2 := h.2 rfl rfl
  exact ⟨by decide, by decide, h.1, h2.1, h2.2.1⟩

/-! ## Search lemmas (C5 and C6) -/

/-- finish on a search action is the base finish: it never touches the
queue, the visited set, the outdoors flag, the psyche, or the kind, and
it marks an unfinished action finished. -/
theorem finish_search_fields (env : ActEnv) (b : Bool) (a : ActionState)
    (p : Psyche) (hk : a.kind = .search) :
    (Action.finish env b a p).2.1 = p ∧
    (Action.finish env b a p).1.kind = a.kind ∧
    (Action.finish env b a p).1.search_queue = a.search_queue ∧
    (Action.finish env b a p).1.visited_coords = a.visited_coords ∧
    (Action.finish env b a p).1.search_is_outdoors = a.search_is_outdoors ∧
    (Action.finish env b a p).1.duration = a.duration ∧
    (Action.finish env b a p).1.beats_elapsed = a.beats_elapsed ∧
    (a.is_finished = false → (Action.finish env b a p).1.is_finished = true ∧
      (Action.finish env b a p).1.was_successful = b) := by
  obtain ⟨k, dur, be, fin, intr, suc, pp, mc, obn, sd, vc, sq, sio, bn, ec⟩ := a
  cases hk
  cases fin <;> simp [Action.finish, Action.baseFinish]

/-- The base update on a search action: psyche untouched, search fields
untouched, and the result is unfinished exactly when the action was
unfinished and the timeout does not fire this beat. -/
theorem baseUpdate_search_fields (env : ActEnv) (a : ActionState) (p : Psyche)
    (hk : a.kind = .search) :
    (Action.baseUpdate env a p).2.1 = p ∧
    (Action.baseUpdate env a p).1.kind = a.kind ∧
    (Action.baseUpdate env a p).1.search_queue = a.search_queue ∧
    (Action.baseUpdate env a p).1.visited_coords = a.visited_coords ∧
    (Action.baseUpdate env a p).1.search_is_outdoors = a.search_is_outdoors ∧
    (Action.baseUpdate env a p).1.object_name = a.object_name ∧
    (Action.baseUpdate env a p).1.search_depth = a.search_depth ∧
    (Action.baseUpdate env a p).1.duration = a.duration ∧
    (Action.baseUpdate env a p).1.beats_elapsed = a.beats_elapsed + 1 ∧
    ((Action.baseUpdate env a p).1.is_finished = false ↔
      (a.is_finished = false ∧ ¬ (a.duration ≤ a.beats_elapsed + 1))) ∧
    ((Action.baseUpdate env a p).1.is_finished = false →
      (Action.baseUpdate env a p).1.was_successful = a.was_successful) ∧
    (a.is_finished = true →
      (Action.baseUpdate env a p).1.was_successful = a.was_successful ∧
      (Action.baseUpdate env a p).1.search_queue = a.search_queue ∧
      (Action.baseUpdate env a p).1.visited_coords = a.visited_coords) := by
  obtain ⟨k, dur, be, fin, intr, suc, pp, mc, obn, sd, vc, sq, sio, bn, ec⟩ := a
  cases hk
  unfold Action.baseUpdate
  dsimp only
  by_cases hc : dur ≤ be + 1 ∧ fin = false
  · rw [if_pos hc]
    obtain ⟨hd, hf⟩ := hc
    subst hf
    simp [Action.finish, Action.baseFinish, hd]
  · rw [if_neg hc]
    cases fin <;> simp_all

/-- One neighbour-expansion iteration either skips (already visited,
no location data, or boundary rule) or appends one fresh coordinate to
the visited set and the queue. -/
theorem enqueueOne_spec (grid : Grid) (depth : Nat) (acc : ActionState)
    (e : String × Coord) :
    SearchAction.enqueueOne grid depth acc e = acc ∨
    (e.2 ∉ acc.visited_coords ∧
     (acc.search_is_outdoors = false →
       ∀ loc, getLocationAt grid e.2 = some loc → loc.type ≠ "outdoor") ∧
     SearchAction.enqueueOne grid depth acc e =
       { acc with visited_coords := acc.visited_coords ++ [e.2],
                  search_queue := acc.search_queue ++ [(e.2, depth + 1)] }) := by
  unfold SearchAction.enqueueOne
  dsimp only
  by_cases h1 : e.2 ∈ acc.visited_coords
  · rw [if_pos h1]; exact Or.inl rfl
  · rw [if_neg h1]
    rcases hloc : getLocationAt grid e.2 with _ | neighbor_loc
    · exact Or.inl rfl
    · dsimp only
      by_cases h2 : acc.search_is_outdoors = false ∧ neighbor_loc.type = "outdoor"
      · rw [if_pos h2]; exact Or.inl rfl
      · rw [if_neg h2]
        refine Or.inr ⟨h1, fun hflag loc hl => ?_, rfl⟩
        injection hl with hl
        subst hl
        intro hout
        exact h2 ⟨hflag, hout⟩

/-- The neighbour-expansion fold appends a duplicate-free block of
fresh coordinates to the queue (one level deeper) and the visited set,
leaves the other action fields alone, and respects the indoor boundary
rule when the search did not start outdoors. -/
theorem enqueueNeighbors_spec (grid : Grid) (depth : Nat)
    (conns : List (String × Coord)) (a : ActionState) :
    ∃ adds : List Coord,
      (SearchAction.enqueueNeighbors grid depth conns a).search_queue =
        a.search_queue ++ adds.map (fun c => (c, depth + 1)) ∧
      (SearchAction.enqueueNeighbors grid depth conns a).visited_coords =
        a.visited_coords ++ adds ∧
      (∀ c ∈ adds, c ∉ a.visited_coords) ∧
      adds.Nodup ∧
      (SearchAction.enqueueNeighbors grid depth conns a).search_is_outdoors =
        a.search_is_outdoors ∧
      (SearchAction.enqueueNeighbors grid depth conns a).kind = a.kind ∧
      (SearchAction.enqueueNeighbors grid depth conns a).is_finished = a.is_finished ∧
      (SearchAction.enqueueNeighbors grid depth conns a).was_successful = a.was_successful ∧
      (SearchAction.enqueueNeighbors grid depth conns a).duration = a.duration ∧
      (SearchAction.enqueueNeighbors grid depth conns a).beats_elapsed = a.beats_elapsed ∧
      (a.search_is_outdoors = false →
        ∀ c ∈ adds, ∀ loc, getLocationAt grid c = some loc → loc.type ≠ "outdoor") := by
  induction conns generalizing a with
  | nil =>
      refine ⟨[], ?_⟩
      simp [SearchAction.enqueueNeighbors]
  | cons e conns ih =>
      have hstep : SearchAction.enqueueNeighbors grid depth (e :: conns) a =
          SearchAction.enqueueNeighbors grid depth conns
            (SearchAction.enqueueOne grid depth a e) := by
        simp [SearchAction.enqueueNeighbors]
      rcases enqueueOne_spec grid depth a e with hone | ⟨hfresh, hbound, hone⟩
      · rw [hstep, hone]
        exact ih a
      · obtain ⟨adds, hq, hv, hf, hnd, hio, hkd, hfin, hsuc, hdur, hbe, hbd⟩ :=
          ih { a with visited_coords := a.visited_coords ++ [e.2],
                      search_queue := a.search_queue ++ [(e.2, depth + 1)] }
        rw [hstep, hone]
        refine ⟨e.2 :: adds, ?_, ?_, ?_, ?_, hio, hkd, hfin, hsuc, hdur, hbe, ?_⟩
        · rw [hq]; simp
        · rw [hv]; simp
        · intro c hc
          rcases List.mem_cons.mp hc with hc | hc
          · subst hc; exact hfresh
          · intro hmem
            exact hf c hc (by simp [hmem])
        · refine List.nodup_cons.mpr ⟨fun hmem => ?_, hnd⟩
          exact hf e.2 hmem (by simp)
        · intro hflag c hc loc hl
          rcases List.mem_cons.mp hc with hc | hc
          · subst hc; exact hbound hflag loc hl
          · exact hbd hflag c hc loc hl

theorem map_fst_append_depth (rest : List (Coord × Nat)) (adds : List Coord)
    (d : Nat) :
    (rest ++ adds.map (fun c => (c, d))).map Prod.fst =
      rest.map Prod.fst ++ adds := by
  induction adds with
  | nil => simp
  | cons x xs ih => simp_all

/-- One beat of a search action: the kind, the grid and the outdoors
flag are preserved, the search invariant is maintained, the visited set
grows monotonically, the queue only ever holds previously queued or
fresh coordinates, and the coordinate visited this beat leaves the
queue for good. -/
theorem search_step (env : ActEnv) (a : ActionState) (p : Psyche)
    (hk : a.kind = .search) (hinv : SearchInv p.grid a) :
    (Action.update env a p).1.kind = .search ∧
    (Action.update env a p).2.1.grid = p.grid ∧
    (Action.update env a p).1.search_is_outdoors = a.search_is_outdoors ∧
    SearchInv p.grid (Action.update env a p).1 ∧
    (∀ c ∈ a.visited_coords, c ∈ (Action.update env a p).1.visited_coords) ∧
    (∀ c ∈ (Action.update env a p).1.search_queue.map Prod.fst,
      c ∈ a.search_queue.map Prod.fst ∨ c ∉ a.visited_coords) ∧
    (∀ c ∈ searchStepVisit a, c ∈ a.search_queue.map Prod.fst) ∧
    (∀ c ∈ searchStepVisit a, c ∉ (Action.update env a p).1.search_queue.map Prod.fst) := by
  obtain ⟨hq1, hq2, hq3⟩ := hinv
  have hupd : Action.update env a p = SearchAction.updateBody env a p := by
    simp [Action.update, hk]
  rw [hupd]
  unfold SearchAction.updateBody
  obtain ⟨hbp, hbk, hbq, hbv, hbio, hbon, hbsd, hbdur, hbbe, hbfin, _⟩ :=
    baseUpdate_search_fields env a p hk
  rcases hb : Action.baseUpdate env a p with ⟨a0, p0, evs0⟩
  rw [hb] at hbp hbk hbq hbv hbio hbon hbsd hbdur hbbe hbfin
  dsimp only at hbp hbk hbq hbv hbio hbon hbsd hbdur hbbe hbfin ⊢
  rw [hbp] at hb ⊢
  by_cases hfin : a0.is_finished = true
  · -- the beat timeout fired (or the action was already finished):
    -- nothing is popped
    rw [if_pos hfin]
    have hv0 : searchStepVisit a = [] := by
      unfold searchStepVisit
      rcases ha : a.is_finished with _ | _
      · have := hbfin.mpr
        by_cases ht : a.duration ≤ a.beats_elapsed + 1
        · simp [ha, ht]
        · exact absurd (this ⟨ha, ht⟩) (by rw [hfin]; simp)
      · simp [ha]
    dsimp only
    rw [hv0]
    refine ⟨by rw [hbk, hk], rfl, hbio,
      ⟨by rw [hbq]; exact hq1, by rw [hbq, hbv]; exact hq2, ?_⟩,
      by rw [hbv]; exact fun c hc => hc,
      by rw [hbq]; exact fun c hc => Or.inl hc,
      by simp, by simp⟩
    rw [hbio, hbq]
    intro hflag cd hcd loc hl
    exact hq3 hflag cd hcd loc hl
  · rw [if_neg hfin]
    have hfin0 : a0.is_finished = false := by
      rcases h0 : a0.is_finished with _ | _
      · rfl
      · exact absurd h0 hfin
    obtain ⟨hfa, hnt⟩ := hbfin.mp hfin0
    have hvisit : searchStepVisit a =
        match a.search_queue with
        | [] => []
        | (c, _) :: _ => [c] := by
      unfold searchStepVisit
      simp [hfa, hnt]
    rw [hbq]
    rcases hq : a.search_queue with _ | ⟨⟨c, depth⟩, rest⟩
    · -- queue exhausted: clean not-found finish, nothing popped
      rw [hq] at hvisit hq1 hq2 hq3
      dsimp only
      obtain ⟨hfp, hfk, hfq, hfv, hfio, -⟩ :=
        finish_search_fields env false a0 p (by rw [hbk, hk])
      rcases hf : Action.finish env false a0 p with ⟨a2, p2, evs2⟩
      rw [hf] at hfp hfk hfq hfv hfio
      dsimp only at hfp hfk hfq hfv hfio ⊢
      rw [hfp]
      rw [hvisit]
      refine ⟨by rw [hfk, hbk, hk], rfl, by rw [hfio, hbio],
        ⟨by rw [hfq, hbq, hq]; exact List.nodup_nil, ?_, ?_⟩,
        by rw [hfv, hbv]; exact fun c hc => hc, ?_, by simp, by simp⟩
      · rw [hfq, hbq, hq]; intro c hc; exact absurd hc (by simp)
      · rw [hfio, hbio, hfq, hbq, hq]
        intro hflag cd hcd
        exact absurd hcd (by simp)
      · rw [hfq, hbq, hq]; intro c hc; exact absurd hc (by simp)
    · -- pop the head
      rw [hq] at hvisit hq1 hq2 hq3
      dsimp only
      rw [hvisit]
      have hqmap : ((c, depth) :: rest).map Prod.fst = c :: rest.map Prod.fst := rfl
      have hcnotrest : c ∉ rest.map Prod.fst := by
        have := hq1
        rw [hqmap] at this
        exact (List.nodup_cons.mp this).1
      have hcvis : c ∈ a.visited_coords := hq2 c (by simp)
      have hrestnd : (rest.map Prod.fst).Nodup := by
        have := hq1
        rw [hqmap] at this
        exact (List.nodup_cons.mp this).2
      have hrestvis : ∀ x ∈ rest.map Prod.fst, x ∈ a.visited_coords := by
        intro x hx
        exact hq2 x (by rw [hqmap]; exact List.mem_cons_of_mem _ hx)
      have hrestbd : a.search_is_outdoors = false →
          ∀ cd ∈ rest, ∀ loc, getLocationAt p.grid cd.1 = some loc →
            loc.type ≠ "outdoor" := by
        intro hflag cd hcd loc hl
        exact hq3 hflag cd (List.mem_cons_of_mem _ hcd) loc hl
      rcases hloc : getLocationAt p.grid c with _ | current_location_data
      · -- no location data at the popped coordinate: skip the beat
        dsimp only
        refine ⟨by rw [hbk, hk], rfl, hbio,
          ⟨?_, ?_, ?_⟩, by rw [hbv]; exact fun x hx => hx, ?_, ?_, ?_⟩
        · show (rest.map Prod.fst).Nodup
          exact hrestnd
        · show ∀ x ∈ rest.map Prod.fst, x ∈ a0.visited_coords
          rw [hbv]; exact hrestvis
        · show a0.search_is_outdoors = false → ∀ cd ∈ rest, _
          rw [hbio]; exact hrestbd
        · show ∀ x ∈ rest.map Prod.fst, _
          intro x hx
          exact Or.inl (by rw [hqmap]; exact List.mem_cons_of_mem _ hx)
        · intro x hx
          rw [List.mem_singleton] at hx
          subst hx
          simp
        · intro x hx
          rw [List.mem_singleton] at hx
          subst hx
          exact hcnotrest
      · dsimp only
        by_cases hfound : a.object_name ∈ current_location_data.objects
        · -- target found at the head: success finish
          have hfoundb : a0.object_name ∈ current_location_data.objects := by
            rw [hbon]; exact hfound
          rw [if_pos hfoundb]
          obtain ⟨hfp, hfk, hfq, hfv, hfio, -⟩ :=
            finish_search_fields env true { a0 with search_queue := rest }
              { p with position := c } (by show a0.kind = _; rw [hbk, hk])
          rcases hf : Action.finish env true { a0 with search_queue := rest }
            { p with position := c } with ⟨a2, p2, evs2⟩
          rw [hf] at hfp hfk hfq hfv hfio
          dsimp only at hfp hfk hfq hfv hfio ⊢
          refine ⟨by rw [hfk]; show a0.kind = _; rw [hbk, hk],
            by rw [hfp], by rw [hfio]; show a0.search_is_outdoors = _; rw [hbio],
            ⟨?_, ?_, ?_⟩, ?_, ?_, ?_, ?_⟩
          · rw [hfq]; exact hrestnd
          · rw [hfq, hfv, hbv]; exact hrestvis
          · rw [hfio, hfq]
            show a0.search_is_outdoors = false → _
            rw [hbio]
            exact hrestbd
          · rw [hfv, hbv]; exact fun x hx => hx
          · rw [hfq]
            intro x hx
            exact Or.inl (by rw [hqmap]; exact List.mem_cons_of_mem _ hx)
          · intro x hx
            rw [List.mem_singleton] at hx
            subst hx
            simp
          · rw [hfq]
            intro x hx
            rw [List.mem_singleton] at hx
            subst hx
            exact hcnotrest
        · have hfoundb : a0.object_name ∉ current_location_data.objects := by
            rw [hbon]; exact hfound
          rw [if_neg hfoundb]
          by_cases hdepth : depth < a0.search_depth
          · -- expand neighbours
            rw [if_pos hdepth]
            obtain ⟨adds, heq, hev, hefresh, hend, heio, hekd, -, -, -, -, hebd⟩ :=
              enqueueNeighbors_spec p.grid depth current_location_data.connections
                { a0 with search_queue := rest }
            refine ⟨by rw [hekd]; show a0.kind = _; rw [hbk, hk], rfl,
              by rw [heio]; show a0.search_is_outdoors = _; rw [hbio],
              ⟨?_, ?_, ?_⟩, ?_, ?_, ?_, ?_⟩
            · rw [heq]
              dsimp only
              rw [map_fst_append_depth]
              refine List.Nodup.append hrestnd hend ?_
              intro x hx1 hx2
              have hxv : x ∈ a.visited_coords := hrestvis x hx1
              have := hefresh x hx2
              dsimp only at this
              rw [hbv] at this
              exact this (by exact hxv)
            · rw [heq, hev]
              dsimp only
              rw [hbv]
              intro x hx
              rw [map_fst_append_depth] at hx
              rcases List.mem_append.mp hx with hx | hx
              · exact List.mem_append.mpr (Or.inl (hrestvis x hx))
              · exact List.mem_append.mpr (Or.inr hx)
            · rw [heio, heq]
              show a0.search_is_outdoors = false → _
              rw [hbio]
              intro hflag cd hcd loc hl
              rcases List.mem_append.mp hcd with hcd | hcd
              · exact hrestbd hflag cd hcd loc hl
              · have hcd2 := List.mem_map.mp hcd
                obtain ⟨x, hx, hxe⟩ := hcd2
                have := hebd (by show a0.search_is_outdoors = false; rw [hbio]; exact hflag) x hx loc
                rw [← hxe] at hl
                exact this hl
            · rw [hev]
              dsimp only
              rw [hbv]
              intro x hx
              exact List.mem_append.mpr (Or.inl hx)
            · rw [heq]
              dsimp only
              intro x hx
              rw [map_fst_append_depth] at hx
              rcases List.mem_append.mp hx with hx | hx
              · exact Or.inl (by rw [hqmap]; exact List.mem_cons_of_mem _ hx)
              · right
                have := hefresh x hx
                dsimp only at this
                rw [hbv] at this
                exact this
            · intro x hx
              rw [List.mem_singleton] at hx
              subst hx
              simp
            · intro x hx
              rw [List.mem_singleton] at hx
              rw [hx, heq]
              dsimp only
              rw [map_fst_append_depth]
              intro hcmem
              rcases List.mem_append.mp hcmem with hx2 | hx2
              · exact hcnotrest hx2
              · have := hefresh c hx2
                dsimp only at this
                rw [hbv] at this
                exact this hcvis
          · -- depth bound reached: pop only
            rw [if_neg hdepth]
            refine ⟨by show a0.kind = _; rw [hbk, hk], rfl,
              by show a0.search_is_outdoors = _; rw [hbio],
              ⟨hrestnd, by rw [hbv]; exact hrestvis,
               by show a0.search_is_outdoors = false → _; rw [hbio]; exact hrestbd⟩,
              by rw [hbv]; exact fun x hx => hx, ?_, ?_, ?_⟩
            · intro x hx
              exact Or.inl (by rw [hqmap]; exact List.mem_cons_of_mem _ hx)
            · intro x hx
              rw [List.mem_singleton] at hx
              subst hx
              simp
            · intro x hx
              rw [List.mem_singleton] at hx
              subst hx
              exact hcnotrest

/-- A search beat always preserves the kind and the duration and
advances the elapsed counter by one; it reports finished whenever the
action was finished or the timeout was due. -/
theorem search_update_basic (env : ActEnv) (a : ActionState) (p : Psyche)
    (hk : a.kind = .search) :
    (Action.update env a p).1.kind = .search ∧
    (Action.update env a p).1.duration = a.duration ∧
    (Action.update env a p).1.beats_elapsed = a.beats_elapsed + 1 ∧
    ((a.is_finished = true ∨ a.duration ≤ a.beats_elapsed + 1) →
      (Action.update env a p).1.is_finished = true) ∧
    (a.is_finished = true →
      (Action.update env a p).1.search_queue = a.search_queue ∧
      (Action.update env a p).1.was_successful = a.was_successful ∧
      (Action.update env a p).1.visited_coords = a.visited_coords) := by
  have hupd : Action.update env a p = SearchAction.updateBody env a p := by
    simp [Action.update, hk]
  rw [hupd]
  unfold SearchAction.updateBody
  obtain ⟨hbp, hbk, hbq, hbv, hbio, hbon, hbsd, hbdur, hbbe, hbfin, hbsuc, hbpre⟩ :=
    baseUpdate_search_fields env a p hk
  rcases hb : Action.baseUpdate env a p with ⟨a0, p0, evs0⟩
  rw [hb] at hbp hbk hbq hbv hbio hbon hbsd hbdur hbbe hbfin hbsuc hbpre
  dsimp only at hbp hbk hbq hbv hbio hbon hbsd hbdur hbbe hbfin hbsuc hbpre ⊢
  rw [hbp] at hb ⊢
  have hk0 : a0.kind = AKind.search := by rw [hbk, hk]
  by_cases hfin : a0.is_finished = true
  · rw [if_pos hfin]
    refine ⟨hk0, hbdur, hbbe, fun _ => hfin, fun hf => ⟨hbq, (hbpre hf).1, hbv⟩⟩
  · rw [if_neg hfin]
    have hfin0 : a0.is_finished = false := by
      rcases h0 : a0.is_finished with _ | _
      · rfl
      · exact absurd h0 hfin
    obtain ⟨hfa, hnt⟩ := hbfin.mp hfin0
    have hdue : ¬ (a.is_finished = true ∨ a.duration ≤ a.beats_elapsed + 1) := by
      intro hor
      rcases hor with h | h
      · rw [hfa] at h; simp at h
      · exact hnt h
    rcases hq : a0.search_queue with _ | ⟨⟨c, depth⟩, rest⟩
    · dsimp only
      obtain ⟨hfp, hfk, hfq, hfv, hfio, hfd, hfb, hffin⟩ :=
        finish_search_fields env false a0 p hk0
      rcases hf : Action.finish env false a0 p with ⟨a2, p2, evs2⟩
      rw [hf] at hfk hfd hfb hffin
      dsimp only at hfk hfd hfb hffin ⊢
      exact ⟨by rw [hfk, hk0], by rw [hfd, hbdur], by rw [hfb, hbbe],
        fun h => absurd h hdue, fun h => absurd h (by rw [hfa]; simp)⟩
    · dsimp only
      rcases hloc : getLocationAt p.grid c with _ | current_location_data
      · dsimp only
        exact ⟨hk0, hbdur, hbbe, fun h => absurd h hdue,
          fun h => absurd h (by rw [hfa]; simp)⟩
      · dsimp only
        by_cases hfound : a0.object_name ∈ current_location_data.objects
        · rw [if_pos hfound]
          obtain ⟨hfp, hfk, hfq, hfv, hfio, hfd, hfb, hffin⟩ :=
            finish_search_fields env true { a0 with search_queue := rest }
              { p with position := c } hk0
          rcases hf : Action.finish env true { a0 with search_queue := rest }
            { p with position := c } with ⟨a2, p2, evs2⟩
          rw [hf] at hfk hfd hfb
          dsimp only at hfk hfd hfb ⊢
          exact ⟨by rw [hfk]; exact hk0, by rw [hfd]; exact hbdur,
            by rw [hfb]; exact hbbe,
            fun h => absurd h hdue, fun h => absurd h (by rw [hfa]; simp)⟩
        · rw [if_neg hfound]
          by_cases hdepth : depth < a0.search_depth
          · rw [if_pos hdepth]
            obtain ⟨adds, -, -, -, -, -, hekd, -, -, hedur, hebe, -⟩ :=
              enqueueNeighbors_spec p.grid depth current_location_data.connections
                { a0 with search_queue := rest }
            exact ⟨by rw [hekd]; exact hk0, by rw [hedur]; exact hbdur,
              by rw [hebe]; exact hbbe,
              fun h => absurd h hdue, fun h => absurd h (by rw [hfa]; simp)⟩
          · rw [if_neg hdepth]
            exact ⟨hk0, hbdur, hbbe, fun h => absurd h hdue,
              fun h => absurd h (by rw [hfa]; simp)⟩

/-- The visit of one beat is empty or a single coordinate. -/
theorem searchStepVisit_cases (a : ActionState) :
    searchStepVisit a = [] ∨ ∃ c0, searchStepVisit a = [c0] := by
  unfold searchStepVisit
  split
  · exact Or.inl rfl
  · split
    · exact Or.inl rfl
    · rcases a.search_queue with _ | ⟨⟨c0, d0⟩, rest⟩
      · exact Or.inl rfl
      · exact Or.inr ⟨c0, rfl⟩

/-- A finished search stays finished across any number of beats, with
its recorded result (success flag and remaining queue) untouched. -/
theorem searchRun_keeps_finished (env : ActEnv) :
    ∀ (n : Nat) (a : ActionState) (p : Psyche), a.kind = .search →
      a.is_finished = true →
      (searchRun env n a p).1.is_finished = true ∧
      (searchRun env n a p).1.was_successful = a.was_successful ∧
      (searchRun env n a p).1.search_queue = a.search_queue := by
  intro n
  induction n with
  | zero => exact fun a p _ _ => ⟨‹_›, rfl, rfl⟩
  | succ n ih =>
      intro a p hk hf
      obtain ⟨hk1, -, -, hfin1, hpres⟩ := search_update_basic env a p hk
      obtain ⟨hq1, hsuc1, hv1⟩ := hpres hf
      have hact : (searchRun env (n + 1) a p).1 =
          (searchRun env n (Action.update env a p).1 (Action.update env a p).2.1).1 := rfl
      rw [hact]
      obtain ⟨ihf, ihs, ihq⟩ := ih (Action.update env a p).1 (Action.update env a p).2.1
        hk1 (hfin1 (Or.inl hf))
      exact ⟨ihf, by rw [ihs, hsuc1], by rw [ihq, hq1]⟩

/-- Every bounded search is finished once its beat budget has elapsed. -/
theorem searchRun_finishes (env : ActEnv) :
    ∀ (n : Nat) (a : ActionState) (p : Psyche), a.kind = .search →
      1 ≤ n → a.duration ≤ a.beats_elapsed + n →
      (searchRun env n a p).1.is_finished = true := by
  intro n
  induction n with
  | zero => intro a p _ h1 _; exact absurd h1 (by simp)
  | succ n ih =>
      intro a p hk _ hd
      obtain ⟨hk1, hdur1, hbe1, hfin1, -⟩ := search_update_basic env a p hk
      have hact : (searchRun env (n + 1) a p).1 =
          (searchRun env n (Action.update env a p).1 (Action.update env a p).2.1).1 := rfl
      rw [hact]
      rcases Nat.eq_zero_or_pos n with hn | hn
      · subst hn
        show (Action.update env a p).1.is_finished = true
        exact hfin1 (Or.inr (by omega))
      · by_cases hfin : (Action.update env a p).1.is_finished = true
        · exact (searchRun_keeps_finished env n _ _ hk1 hfin).1
        · refine ih _ _ hk1 hn ?_
          rw [hdur1, hbe1]
          omega

/-- Over any number of beats, a search maintains its invariant, the
grid and the outdoors flag are preserved, the visit log is
duplicate-free, and under an indoor start every visited coordinate
with location data is non-outdoor. -/
theorem searchRun_spec (env : ActEnv) :
    ∀ (n : Nat) (a : ActionState) (p : Psyche), a.kind = .search →
      SearchInv p.grid a →
      (searchRun env n a p).1.kind = .search ∧
      (searchRun env n a p).2.1.grid = p.grid ∧
      (searchRun env n a p).1.search_is_outdoors = a.search_is_outdoors ∧
      SearchInv p.grid (searchRun env n a p).1 ∧
      (∀ c ∈ a.visited_coords, c ∈ (searchRun env n a p).1.visited_coords) ∧
      (∀ c ∈ (searchRun env n a p).2.2,
        c ∈ a.search_queue.map Prod.fst ∨ c ∉ a.visited_coords) ∧
      (searchRun env n a p).2.2.Nodup ∧
      (a.search_is_outdoors = false →
        ∀ c ∈ (searchRun env n a p).2.2, ∀ loc, getLocationAt p.grid c = some loc →
          loc.type ≠ "outdoor") := by
  intro n
  induction n with
  | zero =>
      intro a p hk hinv
      refine ⟨hk, rfl, rfl, hinv, fun c hc => hc, ?_, List.nodup_nil, ?_⟩
      · intro c hc; exact absurd hc (by simp [searchRun])
      · intro _ c hc; exact absurd hc (by simp [searchRun])
  | succ n ih =>
      intro a p hk hinv
      obtain ⟨s1, s2, s3, s4, s5, s6, s7, s8⟩ := search_step env a p hk hinv
      have hinv1 : SearchInv (Action.update env a p).2.1.grid (Action.update env a p).1 := by
        rw [s2]; exact s4
      obtain ⟨r1, r2, r3, r4, r5, r6, r7, r8⟩ :=
        ih (Action.update env a p).1 (Action.update env a p).2.1 s1 hinv1
      rw [s2] at r2 r4 r8
      have hlog : (searchRun env (n + 1) a p).2.2 =
          searchStepVisit a ++
            (searchRun env n (Action.update env a p).1 (Action.update env a p).2.1).2.2 := rfl
      have hact : (searchRun env (n + 1) a p).1 =
          (searchRun env n (Action.update env a p).1 (Action.update env a p).2.1).1 := rfl
      have hpsy : (searchRun env (n + 1) a p).2.1 =
          (searchRun env n (Action.update env a p).1 (Action.update env a p).2.1).2.1 := rfl
      rw [hlog, hact, hpsy]
      refine ⟨r1, r2, by rw [r3, s3], r4, fun c hc => r5 c (s5 c hc), ?_, ?_, ?_⟩
      · -- origin of logged coordinates
        intro c hc
        rcases List.mem_append.mp hc with hc | hc
        · exact Or.inl (s7 c hc)
        · rcases r6 c hc with h | h
          · rcases s6 c h with h2 | h2
            · exact Or.inl h2
            · exact Or.inr h2
          · exact Or.inr (fun hmem => h (s5 c hmem))
      · -- the visit log never repeats a coordinate
        rcases searchStepVisit_cases a with hv | ⟨c0, hv⟩
        · rw [hv]; simpa using r7
        · rw [hv]
          refine List.nodup_cons.mpr ⟨?_, r7⟩
          intro hc0
          have hc0q : c0 ∈ a.search_queue.map Prod.fst := s7 c0 (by rw [hv]; simp)
          have hc0vis : c0 ∈ a.visited_coords := hinv.2.1 c0 hc0q
          rcases r6 c0 hc0 with h | h
          · exact s8 c0 (by rw [hv]; simp) h
          · exact h (s5 c0 hc0vis)
      · -- boundary rule for an indoor start
        intro hflag c hc loc hl
        rcases List.mem_append.mp hc with hc | hc
        · have hcq : c ∈ a.search_queue.map Prod.fst := s7 c hc
          obtain ⟨cd, hcd, hcde⟩ := List.mem_map.mp hcq
          exact hinv.2.2 hflag cd hcd loc (by rw [hcde]; exact hl)
        · exact r8 (by rw [s3]; exact hflag) c hc loc hl

/-- SearchAction.start seeds the queue and visited set with the
starting coordinate, leaves the psyche alone, and sets the outdoors
flag from the type of the starting location; the search invariant
holds immediately after start. -/
theorem search_start_spec (env : ActEnv) (object_name : String) (depth : Nat)
    (p : Psyche) :
    (Action.start env (SearchAction.mk1 object_name depth) p).1.kind = .search ∧
    (Action.start env (SearchAction.mk1 object_name depth) p).2.1 = p ∧
    (Action.start env (SearchAction.mk1 object_name depth) p).1.is_finished = false ∧
    (Action.start env (SearchAction.mk1 object_name depth) p).1.beats_elapsed = 0 ∧
    (Action.start env (SearchAction.mk1 object_name depth) p).1.duration = depth * 2 ∧
    SearchInv p.grid (Action.start env (SearchAction.mk1 object_name depth) p).1 ∧
    ((Action.start env (SearchAction.mk1 object_name depth) p).1.search_is_outdoors = false ↔
      ∀ loc, getLocationAt p.grid p.position = some loc → loc.type ≠ "outdoor") := by
  unfold Action.start SearchAction.mk1 Action.mk0
  dsimp only
  rcases hloc : getLocationAt p.grid p.position with _ | loc0
  · refine ⟨rfl, rfl, rfl, rfl, rfl, ⟨by simp, by simp, ?_⟩, ?_⟩
    · intro _ cd hcd loc2 hl2
      have hcd1 : cd = (p.position, 0) := by simpa using hcd
      rw [hcd1] at hl2
      dsimp only at hl2
      rw [hloc] at hl2
      exact absurd hl2 (by simp)
    · constructor
      · intro _ loc2 hl2
        exact absurd hl2 (by simp)
      · intro _; rfl
  · by_cases hout : loc0.type = "outdoor"
    · refine ⟨rfl, rfl, rfl, rfl, rfl, ⟨by simp, by simp, ?_⟩, ?_⟩
      · intro hflag
        simp [hout] at hflag
      · constructor
        · intro hflag
          simp [hout] at hflag
        · intro hall
          exact absurd hout (hall loc0 rfl)
    · refine ⟨rfl, rfl, rfl, rfl, rfl, ⟨by simp, by simp, ?_⟩, ?_⟩
      · intro _ cd hcd loc2 hl2
        have hcd1 : cd = (p.position, 0) := by simpa using hcd
        rw [hcd1] at hl2
        dsimp only at hl2
        rw [hloc] at hl2
        injection hl2 with hl2
        rw [← hl2]
        exact hout
      · constructor
        · intro _ loc2 hl2
          injection hl2 with hl2
          rw [← hl2]
          exact hout
        · intro _
          simp [hout]

/-- The three terminal cases of a single search beat from an
unfinished action: the timeout with a non-empty queue gives the
mid-search give-up, queue exhaustion gives the clean not-found, and a
target match at the queue head gives success. -/
theorem search_update_outcomes (env : ActEnv) (a : ActionState) (p : Psyche)
    (hk : a.kind = .search) (hf : a.is_finished = false) :
    (a.duration ≤ a.beats_elapsed + 1 →
      (Action.update env a p).1.is_finished = true ∧
      (Action.update env a p).1.was_successful = false ∧
      (Action.update env a p).1.search_queue = a.search_queue) ∧
    (¬ a.duration ≤ a.beats_elapsed + 1 → a.search_queue = [] →
      (Action.update env a p).1.is_finished = true ∧
      (Action.update env a p).1.was_successful = false ∧
      (Action.update env a p).1.search_queue = []) ∧
    (∀ c depth rest loc, ¬ a.duration ≤ a.beats_elapsed + 1 →
      a.search_queue = (c, depth) :: rest →
      getLocationAt p.grid c = some loc → a.object_name ∈ loc.objects →
      (Action.update env a p).1.is_finished = true ∧
      (Action.update env a p).1.was_successful = true) := by
  have hupd : Action.update env a p = SearchAction.updateBody env a p := by
    simp [Action.update, hk]
  rw [hupd]
  unfold SearchAction.updateBody
  obtain ⟨hbp, hbk, hbq, hbv, hbio, hbon, hbsd, hbdur, hbbe, hbfin, hbsuc, hbpre⟩ :=
    baseUpdate_search_fields env a p hk
  rcases hb : Action.baseUpdate env a p with ⟨a0, p0, evs0⟩
  rw [hb] at hbp hbk hbq hbv hbio hbon hbsd hbdur hbbe hbfin hbsuc hbpre
  dsimp only at hbp hbk hbq hbv hbio hbon hbsd hbdur hbbe hbfin hbsuc hbpre ⊢
  rw [hbp] at hb ⊢
  have hk0 : a0.kind = AKind.search := by rw [hbk, hk]
  refine ⟨?_, ?_, ?_⟩
  · -- timeout fires: the base update auto-finishes with failure
    intro ht
    have hfin0 : a0.is_finished = true := by
      rcases h0 : a0.is_finished with _ | _
      · exact absurd (hbfin.mp h0).2 (by simp [ht])
      · rfl
    rw [if_pos hfin0]
    refine ⟨hfin0, ?_, hbq⟩
    -- the base update went through the dispatched finish(success=False)
    unfold Action.baseUpdate at hb
    dsimp only at hb
    rw [if_pos ⟨by omega, hf⟩] at hb
    obtain ⟨-, -, -, -, -, -, -, hffin⟩ :=
      finish_search_fields env false { a with beats_elapsed := a.beats_elapsed + 1 } p
        (by show a.kind = _; rw [hk])
    rw [hb] at hffin
    exact (hffin hf).2
  · -- queue exhausted before the timeout: explicit failure finish
    intro ht hqe
    have hfin0 : a0.is_finished = false := hbfin.mpr ⟨hf, ht⟩
    rw [if_neg (by rw [hfin0]; simp)]
    rw [hbq, hqe]
    dsimp only
    obtain ⟨hfp, hfk, hfq, hfv, hfio, hfd, hfb, hffin⟩ :=
      finish_search_fields env false a0 p hk0
    rcases hfr : Action.finish env false a0 p with ⟨a2, p2, evs2⟩
    rw [hfr] at hfq hffin
    dsimp only at hfq hffin ⊢
    obtain ⟨hfin2, hsuc2⟩ := hffin hfin0
    exact ⟨hfin2, hsuc2, by rw [hfq, hbq, hqe]⟩
  · -- target found at the queue head: success finish
    intro c depth rest loc ht hqe hloc hobj
    have hfin0 : a0.is_finished = false := hbfin.mpr ⟨hf, ht⟩
    rw [if_neg (by rw [hfin0]; simp)]
    rw [hbq, hqe]
    dsimp only
    rw [hloc]
    dsimp only
    rw [if_pos (by rw [hbon]; exact hobj)]
    obtain ⟨hfp, hfk, hfq, hfv, hfio, hfd, hfb, hffin⟩ :=
      finish_search_fields env true { a0 with search_queue := rest }
        { p with position := c } hk0
    rcases hfr : Action.finish env true { a0 with search_queue := rest }
      { p with position := c } with ⟨a2, p2, evs2⟩
    rw [hfr] at hffin
    dsimp only at hffin ⊢
    exact hffin hfin0

/-! ## C5: no revisits, asymmetric indoor/outdoor boundary -/

/-- C5: A bounded search visits each coordinate at most once over its
whole lifetime, and the boundary rule is asymmetric from the starting
location type: a search that begins at an indoor location never visits
an outdoor location, while a search that begins at an outdoor location
may cross into indoor locations - witnessed by the concrete
outdoor-start run over crossGrid that visits the indoor shop. -/
theorem claim_C5_search_no_revisit_asymmetric_boundary (env : ActEnv)
    (n : Nat) (object_name : String) (depth : Nat) (p : Psyche) (loc : Location)
    (hloc : getLocationAt p.grid p.position = some loc) :
    (searchRun env n (Action.start env (SearchAction.mk1 object_name depth) p).1 p).2.2.Nodup ∧
    (loc.type ≠ "outdoor" →
      ∀ c ∈ (searchRun env n (Action.start env (SearchAction.mk1 object_name depth) p).1 p).2.2,
        ∀ loc2, getLocationAt p.grid c = some loc2 → loc2.type ≠ "outdoor") ∧
    (Action.start {} (SearchAction.mk1 "bag_of_chips" 3) crossPsyche).1.search_is_outdoors = true ∧
    ((1 : Int), (0 : Int), (0 : Int)) ∈
      (searchRun {} 2 (Action.start {} (SearchAction.mk1 "bag_of_chips" 3) crossPsyche).1
        (Action.start {} (SearchAction.mk1 "bag_of_chips" 3) crossPsyche).2.1).2.2 ∧
    streetLoc.type = "outdoor" ∧
    getLocationAt crossGrid crossPsyche.position = some streetLoc ∧
    getLocationAt crossGrid ((1 : Int), (0 : Int), (0 : Int)) = some shopLoc ∧
    shopLoc.type = "indoor" := by
  obtain ⟨hk, hpsy, -, -, -, hinv, hiff⟩ := search_start_spec env object_name depth p
  obtain ⟨-, -, -, -, -, -, r7, r8⟩ :=
    searchRun_spec env n (Action.start env (SearchAction.mk1 object_name depth) p).1 p hk hinv
  refine ⟨r7, ?_, by decide, by decide, rfl, by decide, by decide, rfl⟩
  intro hindoor
  have hflag : (Action.start env (SearchAction.mk1 object_name depth) p).1.search_is_outdoors = false := by
    apply hiff.mpr
    intro loc2 hl2
    rw [hloc] at hl2
    injection hl2 with hl2
    rw [← hl2]
    exact hindoor
  exact r8 hflag

/-- Witness for C5: a depth-3 search for the bed starting in the
(indoor) Living Room of the default world; its 6-beat visit log is
duplicate-free, and the concrete outdoor-start crossing facts hold. -/
theorem claim_C5_search_no_revisit_asymmetric_boundary_witness :
    getLocationAt samplePsyche.grid samplePsyche.position = some livingRoom ∧
    (searchRun {} 6 (Action.start {} (SearchAction.mk1 "bed" 3) samplePsyche).1 samplePsyche).2.2.Nodup ∧
    ((1 : Int), (0 : Int), (0 : Int)) ∈
      (searchRun {} 2 (Action.start {} (SearchAction.mk1 "bag_of_chips" 3) crossPsyche).1
        (Action.start {} (SearchAction.mk1 "bag_of_chips" 3) crossPsyche).2.1).2.2 := by
  have h := claim_C5_search_no_revisit_asymmetric_boundary {} 6 "bed" 3
    samplePsyche livingRoom (by decide)
  exact ⟨by decide, h.1, h.2.2.2.1⟩

/-! ## C6: three distinguishable search outcomes -/

/-- C6: Every bounded search is finished once its beat budget elapses,
and its recorded result classifies it into exactly one of three
mutually distinguishable outcomes: target found (success flag set),
queue exhausted before the timeout (failure with an empty queue,
the clean not-found), and the beat timeout firing while unexplored
coordinates remain queued (failure with a non-empty queue, the
gave-up); one beat from an unfinished search produces exactly the
outcome of its cause. -/
theorem claim_C6_search_three_outcomes :
    (∀ (env : ActEnv) (n : Nat) (a : ActionState) (p : Psyche),
      a.kind = .search → 1 ≤ n → a.duration ≤ a.beats_elapsed + n →
      (searchRun env n a p).1.is_finished = true ∧
      (searchOutcome (searchRun env n a p).1).isSome = true) ∧
    (∀ a : ActionState, a.is_finished = true →
      (searchOutcome a = some .found ∨ searchOutcome a = some .notFound ∨
        searchOutcome a = some .gaveUp) ∧
      (searchOutcome a = some .found ↔ a.was_successful = true) ∧
      (searchOutcome a = some .notFound ↔
        a.was_successful = false ∧ a.search_queue = []) ∧
      (searchOutcome a = some .gaveUp ↔
        a.was_successful = false ∧ a.search_queue ≠ [])) ∧
    (∀ (env : ActEnv) (a : ActionState) (p : Psyche),
      a.kind = .search → a.is_finished = false →
      (a.duration ≤ a.beats_elapsed + 1 → a.search_queue ≠ [] →
        searchOutcome (Action.update env a p).1 = some .gaveUp) ∧
      (a.duration ≤ a.beats_elapsed + 1 → a.search_queue = [] →
        searchOutcome (Action.update env a p).1 = some .notFound) ∧
      (¬ a.duration ≤ a.beats_elapsed + 1 → a.search_queue = [] →
        searchOutcome (Action.update env a p).1 = some .notFound) ∧
      (∀ c depth rest loc, ¬ a.duration ≤ a.beats_elapsed + 1 →
        a.search_queue = (c, depth) :: rest →
        getLocationAt p.grid c = some loc → a.object_name ∈ loc.objects →
        searchOutcome (Action.update env a p).1 = some .found)) := by
  refine ⟨?_, ?_, ?_⟩
  · intro env n a p hk h1 hd
    have hfin := searchRun_finishes env n a p hk h1 hd
    refine ⟨hfin, ?_⟩
    unfold searchOutcome
    rw [hfin, if_neg (by simp : ¬ (true = false))]
    split
    · rfl
    · split <;> rfl
  · intro a hfin
    unfold searchOutcome
    rw [hfin]
    rcases hs : a.was_successful with _ | _
    · rcases hq : a.search_queue with _ | ⟨cd, rest⟩ <;> simp
    · simp
  · intro env a p hk hf
    obtain ⟨hto, hqe, hfound⟩ := search_update_outcomes env a p hk hf
    refine ⟨?_, ?_, ?_, ?_⟩
    · intro ht hqne
      obtain ⟨h1, h2, h3⟩ := hto ht
      unfold searchOutcome
      rw [h1, h2, h3]
      simp [hqne]
    · intro ht hq0
      obtain ⟨h1, h2, h3⟩ := hto ht
      unfold searchOutcome
      rw [h1, h2, h3]
      simp [hq0]
    · intro ht hq0
      obtain ⟨h1, h2, h3⟩ := hqe ht hq0
      unfold searchOutcome
      rw [h1, h2, h3]
      simp
    · intro c depth rest loc ht hq hloc hobj
      obtain ⟨h1, h2⟩ := hfound c depth rest loc ht hq hloc hobj
      unfold searchOutcome
      rw [h1, h2]
      simp

/-- Witness for C6: the depth-3 bed search from the Living Room is
finished after its 6-beat budget with a classifiable outcome, and a
fresh search one beat from timeout with a queued coordinate gives up. -/
theorem claim_C6_search_three_outcomes_witness :
    (searchRun {} 6 (Action.start {} (SearchAction.mk1 "bed" 3) samplePsyche).1 samplePsyche).1.is_finished = true ∧
    (searchOutcome (searchRun {} 6 (Action.start {} (SearchAction.mk1 "bed" 3) samplePsyche).1 samplePsyche).1).isSome = true ∧
    searchOutcome (Action.update {}
      { SearchAction.mk1 "bed" 1 with
        beats_elapsed := 1
        search_queue := [(((0 : Int), (0 : Int), (0 : Int)), 0)]
        visited_coords := [((0 : Int), (0 : Int), (0 : Int))] } samplePsyche).1 =
      some SearchOutcome.gaveUp := by
  have h1 := claim_C6_search_three_outcomes.1 {} 6
    (Action.start {} (SearchAction.mk1 "bed" 3) samplePsyche).1 samplePsyche
    (by decide) (by decide) (by decide)
  have h3 := (claim_C6_search_three_outcomes.2.2 {}
    { SearchAction.mk1 "bed" 1 with
      beats_elapsed := 1
      search_queue := [(((0 : Int), (0 : Int), (0 : Int)), 0)]
      visited_coords := [((0 : Int), (0 : Int), (0 : Int))] } samplePsyche
    (by decide) (by decide)).1 (by decide) (by decide)
  exact ⟨h1.1, h1.2, h3⟩

/-! ## C4: pathfinding lemmas -/

theorem entryLe_refl (x : Nat × Coord) : entryLe x x = true := by
  simp [entryLe]

theorem entryLe_of_fst_lt {x y : Nat × Coord} (h : x.1 < y.1) :
    entryLe x y = true := by
  have hne : x.1 ≠ y.1 := Nat.ne_of_lt h
  simp [entryLe, hne, h]

theorem entryLe_false_of_fst_gt {x y : Nat × Coord} (h : y.1 < x.1) :
    entryLe x y = false := by
  have hne : x.1 ≠ y.1 := Ne.symm (Nat.ne_of_lt h)
  have hnlt : ¬ (x.1 < y.1) := by omega
  simp [entryLe, hne, hnlt]

/-- Once the fold accumulator is a strict minimum, it stays. -/
theorem heapFold_stays (e0 : Nat × Coord) :
    ∀ xs : List (Nat × Coord), (∀ x ∈ xs, x = e0 ∨ e0.1 < x.1) →
      xs.foldl (fun m e => if entryLe m e then m else e) e0 = e0 := by
  intro xs
  induction xs with
  | nil => intro _; rfl
  | cons x xs ih =>
      intro h
      have hx := h x (by simp)
      have hle : entryLe e0 x = true := by
        rcases hx with hx | hx
        · rw [hx]; exact entryLe_refl e0
        · exact entryLe_of_fst_lt hx
      simp only [List.foldl_cons, hle, if_true]
      exact ih (fun y hy => h y (List.mem_cons_of_mem _ hy))

/-- The fold reaches the strict minimum once it appears. -/
theorem heapFold_reaches (e0 : Nat × Coord) :
    ∀ (xs : List (Nat × Coord)) (acc : Nat × Coord), e0.1 < acc.1 → e0 ∈ xs →
      (∀ x ∈ xs, x = e0 ∨ e0.1 < x.1) →
      xs.foldl (fun m e => if entryLe m e then m else e) acc = e0 := by
  intro xs
  induction xs with
  | nil => intro acc _ hmem _; exact absurd hmem (by simp)
  | cons x xs ih =>
      intro acc hacc hmem h
      rcases h x (by simp) with hx | hx
      · subst hx
        have hle : entryLe acc x = false := entryLe_false_of_fst_gt hacc
        simp only [List.foldl_cons, hle, if_false]
        exact heapFold_stays x xs (fun y hy => h y (List.mem_cons_of_mem _ hy))
      · have hmem2 : e0 ∈ xs := by
          rcases List.mem_cons.mp hmem with hm | hm
          · exact absurd hm.symm (by intro he; rw [he] at hx; exact absurd hx (by omega))
          · exact hm
        have hnext : e0.1 < (if entryLe acc x = true then acc else x).1 := by
          split
          · exact hacc
          · exact hx
        have := ih (if entryLe acc x = true then acc else x) hnext hmem2
          (fun y hy => h y (List.mem_cons_of_mem _ hy))
        simpa using this

/-- heapq pops the unique strict minimum of the heap. -/
theorem heapMin_of_strict (l : List (Nat × Coord)) (e0 : Nat × Coord)
    (hmem : e0 ∈ l) (hmin : ∀ x ∈ l, x = e0 ∨ e0.1 < x.1) :
    heapMin l = some e0 := by
  cases l with
  | nil => exact absurd hmem (by simp)
  | cons x xs =>
      unfold heapMin
      dsimp only
      rcases hmin x (by simp) with hx | hx
      · subst hx
        rw [heapFold_stays x xs (fun y hy => hmin y (List.mem_cons_of_mem _ hy))]
      · have hmem2 : e0 ∈ xs := by
          rcases List.mem_cons.mp hmem with hm | hm
          · exact absurd hm (by intro he; rw [he] at hx; exact absurd hx (by omega))
          · exact hm
        rw [heapFold_reaches e0 xs x hx hmem2
          (fun y hy => hmin y (List.mem_cons_of_mem _ hy))]

/-- The popped entry was in the heap. -/
theorem heapMin_mem : ∀ (l : List (Nat × Coord)) (e : Nat × Coord),
    heapMin l = some e → e ∈ l := by
  have fold_mem : ∀ (xs : List (Nat × Coord)) (acc : Nat × Coord),
      xs.foldl (fun m e => if entryLe m e then m else e) acc ∈ acc :: xs := by
    intro xs
    induction xs with
    | nil => intro acc; simp
    | cons x xs ih =>
        intro acc
        simp only [List.foldl_cons]
        by_cases hle : entryLe acc x = true
        · rw [if_pos hle]
          have := ih acc
          rcases List.mem_cons.mp this with h | h
          · rw [h]; simp
          · simp [List.mem_cons_of_mem, h]
        · rw [if_neg hle]
          have := ih x
          rcases List.mem_cons.mp this with h | h
          · rw [h]; simp
          · simp [List.mem_cons_of_mem, h]
  intro l e h
  cases l with
  | nil => exact absurd h (by simp [heapMin])
  | cons x xs =>
      unfold heapMin at h
      injection h with h
      rw [← h]
      exact fold_mem xs x

theorem removeFirst_subset (e : Nat × Coord) :
    ∀ (l : List (Nat × Coord)) (x : Nat × Coord), x ∈ removeFirst e l → x ∈ l := by
  intro l
  induction l with
  | nil => intro x hx; exact absurd hx (by simp [removeFirst])
  | cons y ys ih =>
      intro x hx
      unfold removeFirst at hx
      by_cases hy : y = e
      · rw [if_pos hy] at hx
        exact List.mem_cons_of_mem _ hx
      · rw [if_neg hy] at hx
        rcases List.mem_cons.mp hx with h | h
        · rw [h]; simp
        · exact List.mem_cons_of_mem _ (ih x h)

theorem alookup_mem {α β : Type} [DecidableEq α] :
    ∀ (l : List (α × β)) (k : α) (v : β), alookup l k = some v → (k, v) ∈ l := by
  intro l
  induction l with
  | nil => intro k v h; exact absurd h (by simp [alookup])
  | cons x xs ih =>
      intro k v h
      unfold alookup at h
      by_cases hx : x.1 = k
      · rw [List.find?_cons_of_pos _ (by simp [hx])] at h
        simp at h
        rw [← hx, ← h]
        simp
      · rw [List.find?_cons_of_neg _ (by simp [hx])] at h
        exact List.mem_cons_of_mem _ (ih k v h)

theorem aset_of_not_mem {α β : Type} [DecidableEq α]
    (l : List (α × β)) (k : α) (v : β) (h : ∀ e ∈ l, e.1 ≠ k) :
    aset l k v = l ++ [(k, v)] := by
  induction l with
  | nil => rfl
  | cons x xs ih =>
      unfold aset
      rw [if_neg (h x (by simp))]
      rw [ih (fun e he => h e (List.mem_cons_of_mem _ he))]
      exact (List.cons_append x xs [(k, v)]).symm

theorem alookup_isSome_aset {α β : Type} [DecidableEq α]
    (l : List (α × β)) (k k2 : α) (v : β)
    (h : (alookup l k).isSome = true) :
    (alookup (aset l k2 v) k).isSome = true := by
  by_cases hk : k = k2
  · rw [hk, alookup_aset_same]; rfl
  · rw [alookup_aset_other _ _ _ _ hk]; exact h

theorem alookup_map_const {α β : Type} [DecidableEq α]
    (T : List α) (v : β) (k : α) (h : k ∈ T) :
    alookup (T.map (fun n => (n, v))) k = some v := by
  induction T with
  | nil => exact absurd h (by simp)
  | cons x xs ih =>
      by_cases hx : x = k
      · simp [alookup, hx]
      · rcases List.mem_cons.mp h with h2 | h2
        · exact absurd h2.symm hx
        · simp only [List.map_cons]
          unfold alookup
          rw [List.find?_cons_of_neg _ (by simp [hx])]
          exact ih h2

theorem alookup_map_const_none {α β : Type} [DecidableEq α]
    (T : List α) (v : β) (k : α) (h : k ∉ T) :
    alookup (T.map (fun n => (n, v))) k = none := by
  induction T with
  | nil => rfl
  | cons x xs ih =>
      have hx : x ≠ k := fun he => h (by rw [he]; simp)
      simp only [List.map_cons]
      unfold alookup
      rw [List.find?_cons_of_neg _ (by simp [hx])]
      exact ih (fun h2 => h (List.mem_cons_of_mem _ h2))

theorem heuristic_self (a : Coord) : heuristic a a = 0 := by
  simp [heuristic]

theorem heuristic_pos (a b : Coord) (h : a ≠ b) : 0 < heuristic a b := by
  obtain ⟨a1, a2, a3⟩ := a
  obtain ⟨b1, b2, b3⟩ := b
  unfold heuristic
  dsimp only
  by_contra hc
  push_neg at hc
  apply h
  have h1 : a1 = b1 := by omega
  have h2 : a2 = b2 := by omega
  have h3 : a3 = b3 := by omega
  rw [h1, h2, h3]

theorem alookup_cons_self {α β : Type} [DecidableEq α] (k : α) (v : β)
    (l : List (α × β)) : alookup ((k, v) :: l) k = some v := by
  simp [alookup]

theorem alookup_cons_ne {α β : Type} [DecidableEq α] (k1 k : α) (v : β)
    (l : List (α × β)) (h : k1 ≠ k) :
    alookup ((k1, v) :: l) k = alookup l k := by
  unfold alookup
  rw [List.find?_cons_of_neg _ (by simp [h])]

theorem heapMin_singleton (x : Nat × Coord) : heapMin [x] = some x := rfl

theorem find_coord_none (goal : Coord) (T : List Coord) (k : Coord)
    (h : k ∉ T) :
    (T.map (fun n => (1 + heuristic n goal, n))).find?
      (fun i => decide (i.2 = k)) = none := by
  rw [List.find?_eq_none]
  intro x hx
  obtain ⟨n, hn, rfl⟩ := List.mem_map.mp hx
  simp only [decide_eq_true_eq]
  exact fun he => h (he ▸ hn)

theorem aset_cons_ne {α β : Type} [DecidableEq α] (x : α × β)
    (l : List (α × β)) (k : α) (v : β) (h : ¬ (x.1 = k)) :
    aset (x :: l) k v = x :: aset l k v := by
  simp only [aset]
  rw [if_neg h]

theorem relax_one_start (goal start : Coord) (T : List Coord)
    (c : String × Coord) (hcs : c.2 = start) :
    relaxNeighbors goal start [c] (relaxState start goal T) =
      relaxState start goal T := by
  unfold relaxNeighbors relaxState
  simp only [List.foldl_cons, List.foldl_nil]
  dsimp only
  rw [hcs, alookup_cons_self]
  rfl

theorem relax_one_seen (goal start : Coord) (T : List Coord)
    (c : String × Coord) (hcs : c.2 ≠ start) (hmemT : c.2 ∈ T) :
    relaxNeighbors goal start [c] (relaxState start goal T) =
      relaxState start goal T := by
  unfold relaxNeighbors relaxState
  simp only [List.foldl_cons, List.foldl_nil]
  dsimp only
  rw [alookup_cons_ne start c.2 (0 : Nat) _ (Ne.symm hcs)]
  rw [alookup_map_const T (1 : Nat) c.2 hmemT]
  rw [alookup_cons_self]
  rfl

theorem relax_one_new (goal start : Coord) (T : List Coord)
    (c : String × Coord) (hcs : c.2 ≠ start) (hmemT : c.2 ∉ T) :
    relaxNeighbors goal start [c] (relaxState start goal T) =
      relaxState start goal (T ++ [c.2]) := by
  have hkeys_came : ∀ e ∈ T.map (fun n => (n, start)), e.1 ≠ c.2 := by
    intro e he
    obtain ⟨n, hn, rfl⟩ := List.mem_map.mp he
    exact fun h => hmemT (h ▸ hn)
  have hkeys_g : ∀ e ∈ T.map (fun n => (n, (1 : Nat))), e.1 ≠ c.2 := by
    intro e he
    obtain ⟨n, hn, rfl⟩ := List.mem_map.mp he
    exact fun h => hmemT (h ▸ hn)
  have hkeys_f : ∀ e ∈ T.map (fun n => (n, 1 + heuristic n goal)), e.1 ≠ c.2 := by
    intro e he
    obtain ⟨n, hn, rfl⟩ := List.mem_map.mp he
    exact fun h => hmemT (h ▸ hn)
  unfold relaxNeighbors relaxState
  simp only [List.foldl_cons, List.foldl_nil]
  dsimp only
  rw [alookup_cons_ne start c.2 (0 : Nat) _ (Ne.symm hcs)]
  rw [alookup_map_const_none T (1 : Nat) c.2 hmemT]
  rw [alookup_cons_self]
  rw [find_coord_none goal T c.2 hmemT]
  rw [aset_of_not_mem _ _ _ hkeys_came]
  rw [aset_cons_ne _ _ _ _ (show ¬ ((start, (0 : Nat)).1 = c.2) from Ne.symm hcs)]
  rw [aset_of_not_mem _ _ _ hkeys_g]
  rw [aset_cons_ne _ _ _ _ (show ¬ ((start, heuristic start goal).1 = c.2) from Ne.symm hcs)]
  rw [aset_of_not_mem _ _ _ hkeys_f]
  simp [List.map_append]

/-- Relaxing the start node's connection list from the post-pop state
appends exactly the fresh non-start neighbor coordinates, each with
g-score 1, parent start and one heap entry. -/
theorem relax_fold (start goal : Coord) :
    ∀ (conns : List (String × Coord)) (T : List Coord),
      start ∉ T → T.Nodup →
      ∃ Δ : List Coord,
        relaxNeighbors goal start conns (relaxState start goal T) =
          relaxState start goal (T ++ Δ) ∧
        start ∉ T ++ Δ ∧ (T ++ Δ).Nodup ∧
        (∀ n, n ∈ T ++ Δ ↔ n ∈ T ∨ (n ≠ start ∧ ∃ d, (d, n) ∈ conns)) := by
  intro conns
  induction conns with
  | nil =>
      intro T hs hn
      refine ⟨[], ?_, ?_, ?_, ?_⟩
      · show relaxState start goal T = relaxState start goal (T ++ [])
        rw [List.append_nil]
      · rw [List.append_nil]; exact hs
      · rw [List.append_nil]; exact hn
      · intro n; rw [List.append_nil]; simp
  | cons c rest ih =>
      intro T hs hn
      have hsplit : relaxNeighbors goal start (c :: rest) (relaxState start goal T) =
          relaxNeighbors goal start rest
            (relaxNeighbors goal start [c] (relaxState start goal T)) := rfl
      by_cases hcs : c.2 = start
      · obtain ⟨Δ, heq, h1, h2, h3⟩ := ih T hs hn
        refine ⟨Δ, ?_, h1, h2, ?_⟩
        · rw [hsplit, relax_one_start goal start T c hcs, heq]
        · intro n
          rw [h3 n]
          constructor
          · rintro (h | ⟨hns, d, hd⟩)
            · exact Or.inl h
            · exact Or.inr ⟨hns, d, List.mem_cons_of_mem _ hd⟩
          · rintro (h | ⟨hns, d, hd⟩)
            · exact Or.inl h
            · rcases List.mem_cons.mp hd with h4 | h4
              · have hn2 : n = start := by rw [← hcs]; exact congrArg Prod.snd h4
                exact absurd hn2 hns
              · exact Or.inr ⟨hns, d, h4⟩
      · by_cases hmemT : c.2 ∈ T
        · obtain ⟨Δ, heq, h1, h2, h3⟩ := ih T hs hn
          refine ⟨Δ, ?_, h1, h2, ?_⟩
          · rw [hsplit, relax_one_seen goal start T c hcs hmemT, heq]
          · intro n
            rw [h3 n]
            constructor
            · rintro (h | ⟨hns, d, hd⟩)
              · exact Or.inl h
              · exact Or.inr ⟨hns, d, List.mem_cons_of_mem _ hd⟩
            · rintro (h | ⟨hns, d, hd⟩)
              · exact Or.inl h
              · rcases List.mem_cons.mp hd with h4 | h4
                · have hn2 : n = c.2 := congrArg Prod.snd h4
                  exact Or.inl (hn2 ▸ hmemT)
                · exact Or.inr ⟨hns, d, h4⟩
        · have hs2 : start ∉ T ++ [c.2] := by
            rw [List.mem_append]
            rintro (h | h)
            · exact hs h
            · exact hcs (List.mem_singleton.mp h).symm
          have hn2 : (T ++ [c.2]).Nodup := by
            rw [List.nodup_append]
            exact ⟨hn, List.nodup_singleton _,
              fun a ha hb => hmemT (by rwa [List.mem_singleton.mp hb] at ha)⟩
          obtain ⟨Δ, heq, h1, h2, h3⟩ := ih (T ++ [c.2]) hs2 hn2
          refine ⟨c.2 :: Δ, ?_, ?_, ?_, ?_⟩
          · rw [hsplit, relax_one_new goal start T c hcs hmemT, heq,
              List.append_assoc]
            rfl
          · intro hmem2
            apply h1
            rw [List.append_assoc]
            exact hmem2
          · have h5 := h2
            rw [List.append_assoc] at h5
            exact h5
          · intro n
            constructor
            · intro hmem2
              have h4 := (h3 n).mp (by rw [List.append_assoc]; exact hmem2)
              rcases h4 with h5 | ⟨hns, d, hd⟩
              · rcases List.mem_append.mp h5 with h6 | h6
                · exact Or.inl h6
                · have hn3 : n = c.2 := List.mem_singleton.mp h6
                  subst hn3
                  refine Or.inr ⟨hcs, c.1, ?_⟩
                  rw [Prod.mk.eta]
                  exact List.mem_cons_self c rest
              · exact Or.inr ⟨hns, d, List.mem_cons_of_mem _ hd⟩
            · intro hmem2
              have h6 : n ∈ (T ++ [c.2]) ++ Δ → n ∈ T ++ c.2 :: Δ := by
                intro hh
                rw [List.append_assoc] at hh
                exact hh
              apply h6
              apply (h3 n).mpr
              rcases hmem2 with h5 | ⟨hns, d, hd⟩
              · exact Or.inl (List.mem_append.mpr (Or.inl h5))
              · rcases List.mem_cons.mp hd with h7 | h7
                · have hn3 : n = c.2 := congrArg Prod.snd h7
                  exact Or.inl (List.mem_append.mpr (Or.inr
                    (by rw [hn3]; exact List.mem_singleton_self _)))
                · exact Or.inr ⟨hns, d, h7⟩

/-- One relaxation step either leaves the state unchanged, or rebinds
the neighbor's parent to the popped node and at most appends one heap
entry for that neighbor. -/
theorem relax_one_cases (goal current : Coord) (c : String × Coord)
    (st : AStarState) :
    relaxNeighbors goal current [c] st = st ∨
    ((relaxNeighbors goal current [c] st).came_from =
        aset st.came_from c.2 current ∧
     ((relaxNeighbors goal current [c] st).open_set = st.open_set ∨
      ∃ x, (relaxNeighbors goal current [c] st).open_set =
        st.open_set ++ [(x, c.2)])) := by
  unfold relaxNeighbors
  simp only [List.foldl_cons, List.foldl_nil]
  split
  · split
    · exact Or.inr ⟨rfl, Or.inl rfl⟩
    · exact Or.inr ⟨rfl, Or.inr ⟨_, rfl⟩⟩
  · exact Or.inl rfl

/-- Every entry of the open heap after a relaxation pass was already
there or is a neighbor from the processed connection list. -/
theorem relax_open_sub (goal current : Coord) :
    ∀ (conns : List (String × Coord)) (st : AStarState) (e : Nat × Coord),
      e ∈ (relaxNeighbors goal current conns st).open_set →
      e ∈ st.open_set ∨ ∃ d, (d, e.2) ∈ conns := by
  intro conns
  induction conns with
  | nil => intro st e he; exact Or.inl he
  | cons c rest ih =>
      intro st e he
      have hsplit : relaxNeighbors goal current (c :: rest) st =
          relaxNeighbors goal current rest
            (relaxNeighbors goal current [c] st) := rfl
      rw [hsplit] at he
      rcases ih _ e he with h | ⟨d, hd⟩
      · rcases relax_one_cases goal current c st with h1 | ⟨_, h1 | ⟨x, h1⟩⟩
        · rw [h1] at h; exact Or.inl h
        · rw [h1] at h; exact Or.inl h
        · rw [h1] at h
          rcases List.mem_append.mp h with h2 | h2
          · exact Or.inl h2
          · have he2 : e = (x, c.2) := List.mem_singleton.mp h2
            refine Or.inr ⟨c.1, ?_⟩
            rw [he2]
            dsimp only
            rw [Prod.mk.eta]
            exact List.mem_cons_self c rest
      · exact Or.inr ⟨d, List.mem_cons_of_mem _ hd⟩

/-- A relaxation pass over connections of a located node preserves the
came_from edge invariant, only grows the set of came_from keys, and
every new heap entry has a came_from parent. -/
theorem relax_fold_came (g : Grid) (goal current : Coord) (loc : Location)
    (hloc : getLocationAt g current = some loc) :
    ∀ (conns : List (String × Coord)) (st : AStarState),
      (∀ c ∈ conns, c ∈ loc.connections) →
      CameInv g st.came_from →
      CameInv g (relaxNeighbors goal current conns st).came_from ∧
      (∀ k, (alookup st.came_from k).isSome = true →
        (alookup (relaxNeighbors goal current conns st).came_from k).isSome = true) ∧
      (∀ e ∈ (relaxNeighbors goal current conns st).open_set,
        e ∈ st.open_set ∨
        (alookup (relaxNeighbors goal current conns st).came_from e.2).isSome = true) := by
  intro conns
  induction conns with
  | nil =>
      intro st _ hC
      exact ⟨hC, fun k h => h, fun e he => Or.inl he⟩
  | cons c rest ih =>
      intro st hsub hC
      have hsplit : relaxNeighbors goal current (c :: rest) st =
          relaxNeighbors goal current rest
            (relaxNeighbors goal current [c] st) := rfl
      rcases relax_one_cases goal current c st with hone | ⟨hcame1, hopen1⟩
      · rw [hsplit, hone]
        exact ih st (fun x hx => hsub x (List.mem_cons_of_mem _ hx)) hC
      · have hC1 : CameInv g (relaxNeighbors goal current [c] st).came_from := by
          rw [hcame1]
          intro k prev hk
          by_cases hkc : k = c.2
          · rw [hkc, alookup_aset_same] at hk
            injection hk with hk
            exact ⟨loc, c, hk ▸ hloc,
              hsub c (List.mem_cons_self c rest), hkc.symm⟩
          · rw [alookup_aset_other _ _ _ _ hkc] at hk
            exact hC k prev hk
        have hM1 : ∀ k, (alookup st.came_from k).isSome = true →
            (alookup (relaxNeighbors goal current [c] st).came_from k).isSome = true := by
          intro k h
          rw [hcame1]
          exact alookup_isSome_aset _ _ _ _ h
        obtain ⟨hC2, hM2, hO2⟩ := ih (relaxNeighbors goal current [c] st)
          (fun x hx => hsub x (List.mem_cons_of_mem _ hx)) hC1
        rw [hsplit]
        refine ⟨hC2, fun k h => hM2 k (hM1 k h), ?_⟩
        intro e he
        rcases hO2 e he with h2 | h2
        · rcases hopen1 with h3 | ⟨x, h3⟩
          · rw [h3] at h2; exact Or.inl h2
          · rw [h3] at h2
            rcases List.mem_append.mp h2 with h4 | h4
            · exact Or.inl h4
            · have he2 : e.2 = c.2 := by
                rw [List.mem_singleton.mp h4]
              refine Or.inr (hM2 e.2 ?_)
              rw [hcame1, he2, alookup_aset_same]
              rfl
        · exact Or.inr h2

/-- find? succeeds on a list holding a member satisfying the
predicate. -/
theorem find_isSome_of_mem {α : Type} (l : List α) (p : α → Bool) (x : α)
    (hx : x ∈ l) (hp : p x = true) : ∃ y, l.find? p = some y := by
  induction l with
  | nil => cases hx
  | cons a as ih =>
      by_cases ha : p a = true
      · exact ⟨a, List.find?_cons_of_pos _ ha⟩
      · rcases List.mem_cons.mp hx with h | h
        · rw [← h] at ha; exact absurd hp ha
        · obtain ⟨y, hy⟩ := ih h
          exact ⟨y, by rw [List.find?_cons_of_neg _ ha]; exact hy⟩

/-- Backtracking from a non-empty accumulator never yields the empty
label list. -/
theorem reconstruct_ne_nil (g : Grid) (came : List (Coord × Coord)) :
    ∀ (fuel : Nat) (current : Coord) (acc labels : List String),
      acc ≠ [] → reconstructPath g came fuel current acc = some labels →
      labels ≠ [] := by
  intro fuel
  induction fuel with
  | zero =>
      intro current acc labels _ h
      exact absurd h (by simp [reconstructPath])
  | succ fuel ih =>
      intro current acc labels hacc h
      rw [reconstructPath] at h
      cases hl : alookup came current with
      | none =>
          rw [hl] at h
          injection h with h
          rw [← h]
          simp only [ne_eq, List.reverse_eq_nil_iff]
          exact hacc
      | some prev =>
          rw [hl] at h
          dsimp only at h
          exact ih prev _ labels
            (fun hn => hacc (List.append_eq_nil.mp hn).1) h

/-- The loop never pops an unreachable node, so it can never return a
path to an unreachable goal. -/
theorem astar_unreachable (g : Grid) (start goal : Coord)
    (hngoal : ¬ Reach g start goal) :
    ∀ (fuel : Nat) (st : AStarState),
      (∀ e ∈ st.open_set, Reach g start e.2) →
      ∀ labels, astarLoop g goal fuel st ≠ PathResult.path labels := by
  intro fuel
  induction fuel with
  | zero =>
      intro st _ labels h
      exact absurd h (by simp [astarLoop])
  | succ fuel ih =>
      intro st hreach labels h
      rw [astarLoop] at h
      cases hmin : heapMin st.open_set with
      | none =>
          rw [hmin] at h
          exact PathResult.noConfusion h
      | some entry =>
          rw [hmin] at h
          dsimp only at h
          have hentry : Reach g start entry.2 :=
            hreach entry (heapMin_mem _ _ hmin)
          by_cases hg2 : entry.2 = goal
          · exact hngoal (hg2 ▸ hentry)
          · rw [if_neg hg2] at h
            cases hloc : getLocationAt g entry.2 with
            | none =>
                rw [hloc] at h
                exact ih _ (fun e he =>
                  hreach e (removeFirst_subset _ _ _ he)) labels h
            | some loc =>
                rw [hloc] at h
                apply ih _ _ labels h
                intro e he
                rcases relax_open_sub goal entry.2 loc.connections _ e he with
                  h2 | ⟨d, hd⟩
                · exact hreach e (removeFirst_subset _ _ _ h2)
                · exact Reach.step hentry hloc hd

/-- When every open node is the start or has a recorded parent and
came_from only records real edges, the loop never returns an empty
path to a goal distinct from the start: the first backtracking hop
already contributes one direction label. -/
theorem astar_not_path_nil (g : Grid) (start goal : Coord)
    (hne : start ≠ goal) :
    ∀ (fuel : Nat) (st : AStarState),
      (∀ e ∈ st.open_set, e.2 = start ∨
        (alookup st.came_from e.2).isSome = true) →
      CameInv g st.came_from →
      astarLoop g goal fuel st ≠ PathResult.path [] := by
  intro fuel
  induction fuel with
  | zero =>
      intro st _ _ h
      exact absurd h (by simp [astarLoop])
  | succ fuel ih =>
      intro st hopen hcame h
      rw [astarLoop] at h
      cases hmin : heapMin st.open_set with
      | none =>
          rw [hmin] at h
          exact PathResult.noConfusion h
      | some entry =>
          rw [hmin] at h
          dsimp only at h
          by_cases hg2 : entry.2 = goal
          · rw [if_pos hg2] at h
            rcases hopen entry (heapMin_mem _ _ hmin) with hst | hsome
            · exact hne (by rw [← hst, hg2])
            · obtain ⟨prev, hprev⟩ := Option.isSome_iff_exists.mp hsome
              obtain ⟨ploc, ce, hploc, hce, hce2⟩ := hcame entry.2 prev hprev
              obtain ⟨e1, he1⟩ := find_isSome_of_mem ploc.connections
                (fun x => decide (x.2 = entry.2)) ce hce (by simp [hce2])
              have hrec1 : reconstructPath g st.came_from
                  (st.came_from.length + 1) entry.2 [] =
                  reconstructPath g st.came_from st.came_from.length prev
                    [e1.1] := by
                rw [reconstructPath, hprev]
                dsimp only
                rw [hploc]
                dsimp only
                rw [he1]
                rfl
              rw [hrec1] at h
              cases hrec2 : reconstructPath g st.came_from
                  st.came_from.length prev [e1.1] with
              | none =>
                  rw [hrec2] at h
                  exact PathResult.noConfusion h
              | some labels =>
                  rw [hrec2] at h
                  have hlab : labels ≠ [] :=
                    reconstruct_ne_nil g st.came_from st.came_from.length
                      prev [e1.1] labels (by simp) hrec2
                  dsimp only at h
                  injection h with h
                  exact hlab h
          · rw [if_neg hg2] at h
            cases hloc : getLocationAt g entry.2 with
            | none =>
                rw [hloc] at h
                exact ih { st with open_set := removeFirst entry st.open_set }
                  (fun e he => hopen e (removeFirst_subset _ _ _ he)) hcame h
            | some loc =>
                rw [hloc] at h
                obtain ⟨hC, hM, hO⟩ := relax_fold_came g goal entry.2 loc hloc
                  loc.connections
                  { st with open_set := removeFirst entry st.open_set }
                  (fun c hc => hc) hcame
                apply ih _ _ hC h
                intro e he
                rcases hO e he with h2 | h2
                · rcases hopen e (removeFirst_subset _ _ _ h2) with ha | hb
                  · exact Or.inl ha
                  · exact Or.inr (hM e.2 hb)
                · exact Or.inr h2

/-- With any positive fuel, pathfinding from a coordinate to itself
pops the start at once and backtracks to the empty list. -/
theorem find_path_self (g : Grid) (a : Coord) (k : Nat) :
    find_path g (k + 1) a a = PathResult.path [] := by
  show astarLoop g a (k + 1) _ = _
  rw [astarLoop]
  rw [heapMin_singleton]
  dsimp only
  rw [if_pos rfl]
  rfl

/-- Between directly connected distinct coordinates, the second loop
iteration pops the goal (its f-score 1 beats every other relaxed
neighbor) and backtracking yields exactly one direction label. -/
theorem find_path_direct (g : Grid) (start goal : Coord) (loc : Location)
    (lbl : String) (k : Nat)
    (hloc : getLocationAt g start = some loc)
    (hconn : (lbl, goal) ∈ loc.connections)
    (hne : start ≠ goal) :
    ∃ label, find_path g (k + 2) start goal = PathResult.path [label] := by
  obtain ⟨Δ, heq, hsΔ, hnodup, hmem⟩ :=
    relax_fold start goal loc.connections [] (by simp) List.nodup_nil
  simp only [List.nil_append] at heq hsΔ hnodup hmem
  have hgoalΔ : goal ∈ Δ := by
    have h4 := (hmem goal).mpr (Or.inr ⟨Ne.symm hne, lbl, hconn⟩)
    simpa using h4
  have h0 : find_path g (k + 2) start goal =
      astarLoop g goal (k + 1) (relaxState start goal Δ) := by
    show astarLoop g goal (k + 1 + 1) _ = _
    rw [astarLoop]
    rw [heapMin_singleton]
    dsimp only
    rw [if_neg hne]
    rw [hloc]
    dsimp only
    have hrm : removeFirst ((0 : Nat), start) [((0 : Nat), start)] = [] := by
      simp [removeFirst]
    rw [hrm]
    exact congrArg (astarLoop g goal (k + 1)) heq
  have hmin : heapMin (relaxState start goal Δ).open_set =
      some (1, goal) := by
    show heapMin (Δ.map (fun n => (1 + heuristic n goal, n))) = some (1, goal)
    apply heapMin_of_strict
    · have h1 : ((1 : Nat) + heuristic goal goal, goal) ∈
          Δ.map (fun n => (1 + heuristic n goal, n)) :=
        List.mem_map_of_mem _ hgoalΔ
      simpa [heuristic_self] using h1
    · intro x hx
      obtain ⟨n, hn, rfl⟩ := List.mem_map.mp hx
      by_cases hng : n = goal
      · subst hng
        left
        simp [heuristic_self]
      · right
        have hp := heuristic_pos n goal hng
        dsimp only
        omega
  obtain ⟨m, hm⟩ : ∃ m, Δ.length = m + 1 :=
    ⟨Δ.length - 1, by have := List.length_pos_of_mem hgoalΔ; omega⟩
  obtain ⟨e1, he1⟩ := find_isSome_of_mem loc.connections
    (fun x => decide (x.2 = goal)) (lbl, goal) hconn (by simp)
  refine ⟨e1.1, ?_⟩
  rw [h0]
  rw [astarLoop]
  rw [hmin]
  dsimp only [relaxState]
  rw [if_pos rfl]
  have hrec : reconstructPath g (Δ.map (fun n => (n, start)))
      ((Δ.map (fun n => (n, start))).length + 1) goal [] = some [e1.1] := by
    have hlen2 : (Δ.map (fun n => (n, start))).length = m + 1 := by
      simp [hm]
    rw [hlen2]
    rw [reconstructPath]
    rw [alookup_map_const Δ start goal hgoalΔ]
    dsimp only
    rw [hloc]
    dsimp only
    rw [he1]
    have hstart2 : start ∉ Δ := by simpa using hsΔ
    show reconstructPath g (Δ.map (fun n => (n, start))) (m + 1) start
        ([] ++ [e1.1]) = some [e1.1]
    rw [reconstructPath]
    rw [alookup_map_const_none Δ start start hstart2]
    rfl
  rw [hrec]

/-- Reachability stays inside any connection-closed set of
coordinates. -/
theorem Reach_closed (g : Grid) (S : List Coord) (start : Coord)
    (hstart : start ∈ S)
    (hclosed : ∀ b ∈ S,
      ∀ e ∈ ((getLocationAt g b).map Location.connections).getD [],
        e.2 ∈ S) :
    ∀ c, Reach g start c → c ∈ S := by
  intro c h
  induction h with
  | refl => exact hstart
  | step hr hloc hconn ih =>
      rename_i b c2 loc d
      exact hclosed b ih (d, c2) (by rw [hloc]; simpa using hconn)

/-- C4: find_path between two coordinates joined by a direct
connection returns a direction-label list of length 1; when the goal
is unreachable from the start the function never returns a label list
at all, and the distinct no-path signal differs from the empty list;
and the empty list is returned exactly when start equals goal: it is
returned whenever they coincide, and only then. -/
theorem claim_C4_find_path_contract (g : Grid) :
    (∀ (start goal : Coord) (loc : Location) (lbl : String) (fuel : Nat),
        getLocationAt g start = some loc → (lbl, goal) ∈ loc.connections →
        start ≠ goal → 2 ≤ fuel →
        ∃ label, find_path g fuel start goal = PathResult.path [label]) ∧
    (∀ (start goal : Coord) (fuel : Nat) (labels : List String),
        ¬ Reach g start goal →
        find_path g fuel start goal ≠ PathResult.path labels) ∧
    PathResult.noPath ≠ PathResult.path [] ∧
    (∀ (a : Coord) (fuel : Nat), 1 ≤ fuel →
        find_path g fuel a a = PathResult.path []) ∧
    (∀ (start goal : Coord) (fuel : Nat),
        find_path g fuel start goal = PathResult.path [] → start = goal) := by
  refine ⟨?_, ?_, by decide, ?_, ?_⟩
  · intro start goal loc lbl fuel hloc hconn hne hfuel
    obtain ⟨k, rfl⟩ : ∃ k, fuel = k + 2 := ⟨fuel - 2, by omega⟩
    exact find_path_direct g start goal loc lbl k hloc hconn hne
  · intro start goal fuel labels hnr
    have hinv : ∀ e ∈ [((0 : Nat), start)], Reach g start e.2 := by
      intro e he
      rw [List.mem_singleton.mp he]
      exact Reach.refl
    exact astar_unreachable g start goal hnr fuel
      { open_set := [(0, start)], came_from := [],
        g_score := [(start, 0)],
        f_score := [(start, heuristic start goal)] } hinv labels
  · intro a fuel hf
    obtain ⟨k, rfl⟩ : ∃ k, fuel = k + 1 := ⟨fuel - 1, by omega⟩
    exact find_path_self g a k
  · intro start goal fuel h
    by_contra hne
    have hcame : CameInv g ([] : List (Coord × Coord)) := by
      intro k prev hk
      exact absurd hk (by simp [alookup])
    have hopen : ∀ e ∈ [((0 : Nat), start)], e.2 = start ∨
        (alookup ([] : List (Coord × Coord)) e.2).isSome = true := by
      intro e he
      rw [List.mem_singleton.mp he]
      exact Or.inl rfl
    exact astar_not_path_nil g start goal hne fuel
      { open_set := [(0, start)], came_from := [],
        g_score := [(start, 0)],
        f_score := [(start, heuristic start goal)] } hopen hcame h

/-- C4 witness: on the street-and-shop grid the directly connected
shop is reached in one step, the disconnected coordinate (5,0,0)
yields the no-path signal rather than a list, and start-equals-goal
yields exactly the empty list. -/
theorem claim_C4_find_path_contract_witness :
    (∃ label, find_path crossGrid 2 ((0 : Int), (0 : Int), (0 : Int))
        ((1 : Int), (0 : Int), (0 : Int)) = PathResult.path [label]) ∧
    find_path crossGrid 9 ((0 : Int), (0 : Int), (0 : Int))
        ((5 : Int), (0 : Int), (0 : Int)) ≠ PathResult.path [] ∧
    find_path crossGrid 9 ((0 : Int), (0 : Int), (0 : Int))
        ((5 : Int), (0 : Int), (0 : Int)) = PathResult.noPath ∧
    find_path crossGrid 1 ((0 : Int), (0 : Int), (0 : Int))
        ((0 : Int), (0 : Int), (0 : Int)) = PathResult.path [] ∧
    (((0 : Int), (0 : Int), (0 : Int)) : Coord) =
      ((0 : Int), (0 : Int), (0 : Int)) := by
  have hnr : ¬ Reach crossGrid ((0 : Int), (0 : Int), (0 : Int))
      ((5 : Int), (0 : Int), (0 : Int)) := by
    intro h
    have h2 := Reach_closed crossGrid
      [((0 : Int), (0 : Int), (0 : Int)), ((1 : Int), (0 : Int), (0 : Int))]
      ((0 : Int), (0 : Int), (0 : Int)) (by decide) (by decide) _ h
    exact absurd h2 (by decide)
  refine ⟨?_, ?_, by rfl, ?_, ?_⟩
  · exact (claim_C4_find_path_contract crossGrid).1 _ _ streetLoc "east" 2
      rfl (by decide) (by decide) (by decide)
  · exact (claim_C4_find_path_contract crossGrid).2.1 _ _ 9 [] hnr
  · exact (claim_C4_find_path_contract crossGrid).2.2.2.1 _ 1 (by decide)
  · exact (claim_C4_find_path_contract crossGrid).2.2.2.2 _ _ 1
      ((claim_C4_find_path_contract crossGrid).2.2.2.1 _ 1 (by decide))

end Jessica
